import Mathlib

/-!
# Disk monitor: a shallow embedding of `src/go/main.go`

The Go program loads a JSON configuration, then on every tick of a ticker lists the
monitored root directory, samples the disk usage of every sub-directory with `du -sb`,
logs it, and posts a Discord webhook alert when the usage exceeds 95 GiB.

Modelling conventions.

* Go strings are modelled by Lean `String`s (sequences of Unicode code points).  All the
  patterns the program looks for (`http://`, `https://`, `/`, `.sftp`, white space, signs
  and digits) are ASCII, so comparing code points instead of UTF-8 bytes gives the same
  answer on every well-formed UTF-8 string.
* The outside world (file system, `du` sub-process, HTTP client, clock, `json`,
  `filepath.Join`, `%.2f` formatting) is not part of the repository: every such call takes
  its outcome from an explicit parameter, and the effects of a run are recorded as a list
  of `Event`s.
* Go returns `(value, error)` pairs; they are modelled as pairs `value × Option Error`
  where `none` is the `nil` error.
* `log.Fatal` (process exit) is modelled by `Except.error` in `loadConfig`.
-/

set_option autoImplicit false

namespace DiskMonitor

/-! ## Strings (Go package `strings`) -/

/-- Go `strings.HasPrefix`: `len(s) >= len(prefix) && s[:len(prefix)] == prefix`. -/
def hasPrefix (s pre : String) : Bool :=
  decide (s.data.length ≥ pre.data.length) && (s.data.take pre.data.length == pre.data)

/-- Go `strings.HasSuffix`: `len(s) >= len(suffix) && s[len(s)-len(suffix):] == suffix`. -/
def hasSuffix (s suffix : String) : Bool :=
  decide (s.data.length ≥ suffix.data.length) &&
    (s.data.drop (s.data.length - suffix.data.length) == suffix.data)

/-- Go `strings.TrimSuffix`: `if HasSuffix(s, suffix) { return s[:len(s)-len(suffix)] }; return s`. -/
def trimSuffix (s suffix : String) : String :=
  if hasSuffix s suffix then ⟨s.data.take (s.data.length - suffix.data.length)⟩ else s

/-! ## Errors -/

/-- The two error kinds of Go `strconv.NumError`. -/
inductive NumErr
  | syntaxErr
  | rangeErr
  deriving DecidableEq, Repr

/-- Go `error` values that occur in the program. -/
inductive Error
  /-- An error produced by the operating system, the sub-process or the HTTP client. -/
  | external (msg : String)
  /-- `fmt.Errorf("unexpected du output format")`. -/
  | duFormat
  /-- A `*strconv.NumError` returned by `strconv.ParseInt`. -/
  | numError (e : NumErr)
  /-- `fmt.Errorf("discord webhook returned status: %d", resp.StatusCode)`. -/
  | webhookStatus (code : Int)
  deriving DecidableEq, Repr

/-! ## Configuration (`Config`, `loadConfig`) -/

/-- Go `type Config struct`. -/
structure Config where
  containersDirectory : String
  panelURL : String
  adminAPIKey : String
  clientAPIKey : String
  checkInterval : Int
  discordWebhookURL : String
  deriving DecidableEq, Repr

/-- The "Normalize panel URL" block of `loadConfig` (main.go lines 50-54), as a function of
the parsed `config.PanelURL`. -/
def normalizePanelURL (panelURL : String) : String :=
  let panelURL :=
    if !hasPrefix panelURL "http://" && !hasPrefix panelURL "https://" then
      "http://" ++ panelURL
    else panelURL
  trimSuffix panelURL "/"

/-- Go `loadConfig`.  `readFile` is the outcome of `os.ReadFile("config/config.json")` and
`unmarshal` is `json.Unmarshal` into a `Config`.  `Except.error` is `log.Fatal`. -/
def loadConfig (readFile : Except Error String) (unmarshal : String → Except Error Config) :
    Except Error Config :=
  match readFile with
  | .error err => .error err
  | .ok data =>
    match unmarshal data with
    | .error err => .error err
    | .ok config => .ok { config with panelURL := normalizePanelURL config.panelURL }

/-! ## Disk usage sampler (`getDiskUsage`) and the library functions it calls

`strings.Fields`, `unicode.IsSpace` and `strconv.ParseInt` belong to the Go standard
library, not to the repository.  They decide what `getDiskUsage` returns, so they are
transcribed here from the library sources (`strings/strings.go`, `strconv/atoi.go`),
specialised to the arguments of the call: base 10 and bit size 64. -/

/-- Go `unicode.IsSpace`: the ASCII and Latin-1 white space, and the code points of
category Z / property Pattern_White_Space. -/
def isSpace (c : Char) : Bool :=
  let r := c.toNat
  r == 0x09 || r == 0x0A || r == 0x0B || r == 0x0C || r == 0x0D || r == 0x20 ||
  r == 0x85 || r == 0xA0 || r == 0x1680 || (0x2000 ≤ r && r ≤ 0x200A) ||
  r == 0x2028 || r == 0x2029 || r == 0x202F || r == 0x205F || r == 0x3000

/-- The loop of Go `strings.FieldsFunc(s, unicode.IsSpace)`.  The first argument is the
field being read (`start >= 0` in Go), latest character first, or `none` between fields
(`start < 0`). -/
def fieldsLoop : Option (List Char) → List Char → List String
  | none, [] => []
  | some tok, [] => [⟨tok.reverse⟩]
  | none, c :: cs => if isSpace c then fieldsLoop none cs else fieldsLoop (some [c]) cs
  | some tok, c :: cs =>
    if isSpace c then ⟨tok.reverse⟩ :: fieldsLoop none cs else fieldsLoop (some (c :: tok)) cs

/-- Go `strings.Fields`: the maximal runs of non-white-space characters of `s`. -/
def fields (s : String) : List String := fieldsLoop none s.data

/-- Go `strconv`: `lower(c) = c | ('x' - 'X')`. -/
def lower (c : Char) : Nat := c.toNat ||| ('x'.toNat - 'X'.toNat)

/-- The digit loop of Go `strconv.ParseUint` (without the `_` case, which needs base 0);
`n` is the value read so far.  `uint64` arithmetic is `Nat` arithmetic modulo `2^64`. -/
def parseUintLoop (base cutoff maxVal : Nat) : Nat → List Char → Nat × Option NumErr
  | n, [] => (n, none)
  | n, c :: cs =>
    let digit : Option Nat :=
      if '0' ≤ c ∧ c ≤ '9' then some (c.toNat - '0'.toNat)
      else if 'a'.toNat ≤ lower c ∧ lower c ≤ 'z'.toNat then some (lower c - 'a'.toNat + 10)
      else none
    match digit with
    | none => (0, some .syntaxErr)
    | some d =>
      if d ≥ base then (0, some .syntaxErr)
      else if n ≥ cutoff then (maxVal, some .rangeErr)
      else
        let n10 := (n * base) % 2 ^ 64
        let n1 := (n10 + d) % 2 ^ 64
        if n1 < n10 ∨ n1 > maxVal then (maxVal, some .rangeErr)
        else parseUintLoop base cutoff maxVal n1 cs

/-- Go `strconv.ParseUint(s, 10, 64)`: `cutoff = maxUint64/10 + 1`, `maxVal = 1<<64 - 1`. -/
def parseUint (s : String) : Nat × Option NumErr :=
  if s == "" then (0, some .syntaxErr)
  else parseUintLoop 10 ((2 ^ 64 - 1) / 10 + 1) (2 ^ 64 - 1) 0 s.data

/-- Conversion to Go `int64` (two's complement wrap-around). -/
def toInt64 (x : Int) : Int := (x + 2 ^ 63) % 2 ^ 64 - 2 ^ 63

/-- Go `strconv.ParseInt(s, 10, 64)`. -/
def parseInt (s : String) : Int × Option NumErr :=
  match s.data with
  | [] => (0, some .syntaxErr)
  | c :: rest =>
    let signed : Bool × List Char :=
      if c = '+' then (false, rest)
      else if c = '-' then (true, rest)
      else (false, c :: rest)
    let neg := signed.1
    match parseUint ⟨signed.2⟩ with
    | (_, some .syntaxErr) => (0, some .syntaxErr)
    | (un, _) =>
      let cutoff : Nat := 2 ^ 63
      if !neg && decide (un ≥ cutoff) then ((cutoff : Int) - 1, some .rangeErr)
      else if neg && decide (un > cutoff) then (-(cutoff : Int), some .rangeErr)
      else
        let n := toInt64 un
        (if neg then toInt64 (-n) else n, none)

/-- Go `getDiskUsage`.  `run path` is the outcome of `exec.Command("du", "-sb", path).Output()`:
the standard output of the tool, or the error of a failed execution. -/
def getDiskUsage (run : String → Except Error String) (path : String) : Int × Option Error :=
  match run path with
  | .error err => (0, some err)
  | .ok output =>
    match fields output with
    | [] => (0, some .duFormat)
    | part0 :: _ =>
      match parseInt part0 with
      | (_, some err) => (0, some (.numError err))
      | (size, none) => (size, none)

/-! ## Notifier (`sendDiscordNotification`) -/

/-- Go `type DiscordMessage struct`. -/
structure DiscordMessage where
  content : String
  deriving DecidableEq, Repr

/-- The arguments of one `http.Post(url, contentType, body)` call. -/
structure HttpRequest where
  url : String
  contentType : String
  body : String
  deriving DecidableEq, Repr

/-- The `DiscordMessage` built by `sendDiscordNotification`:
`fmt.Sprintf("🚨 Alert for volume %s\nReason: %s\nDetails: %s\nTime: %s", ...)`. -/
def alertMessage (volume reason details now : String) : DiscordMessage :=
  { content := "🚨 Alert for volume " ++ volume ++ "\nReason: " ++ reason ++
      "\nDetails: " ++ details ++ "\nTime: " ++ now }

/-- Go `sendDiscordNotification`.  `marshal` is `json.Marshal`, `post` is the outcome of
`http.Post` (the response status code, or a transport error) and `now` is
`time.Now().Format("2006-01-02 15:04:05")`.  Returns the Go error (`none` is `nil`)
together with the HTTP requests that were made. -/
def sendDiscordNotification (marshal : DiscordMessage → Except Error String)
    (post : HttpRequest → Except Error Int) (now : String)
    (webhookURL volume reason details : String) : Option Error × List HttpRequest :=
  if webhookURL == "" then (none, [])
  else
    let message := alertMessage volume reason details now
    match marshal message with
    | .error err => (some err, [])
    | .ok payload =>
      let req : HttpRequest :=
        { url := webhookURL, contentType := "application/json", body := payload }
      match post req with
      | .error err => (some err, [req])
      | .ok statusCode =>
        if statusCode ≠ 204 then (some (.webhookStatus statusCode), [req])
        else (none, [req])

/-! ## Floating point

`main` converts the `int64` byte count to `float64`, divides by `1024 * 1024 * 1024` and
compares with `95`.  The conversion rounds (53-bit significand), and is modelled exactly;
the division by `2^30` and the comparison are exact, and are modelled in `ℚ`. -/

/-- Number of binary digits of `a`, for `a < 2^fuel`. -/
def bitLength : Nat → Nat → Nat
  | 0, _ => 0
  | fuel + 1, a => if a = 0 then 0 else bitLength fuel (a / 2) + 1

/-- Go conversion `float64(n)` of an `int64` (IEEE 754 binary64, round to nearest, ties to
even, 53 significant bits).  Every such float is an integer; the result is that integer.
With `e` the number of bits of `|n|` beyond 53, `|n| = q * 2^e + r` is rounded to
`q * 2^e` or `(q + 1) * 2^e`. -/
def float64OfInt64 (n : Int) : Int :=
  let a := n.natAbs
  let e := bitLength 64 a - 53
  let q := a / 2 ^ e
  let r := a % 2 ^ e
  let q1 := if 2 * r > 2 ^ e ∨ (2 * r = 2 ^ e ∧ q % 2 = 1) then q + 1 else q
  let v : Int := ((q1 * 2 ^ e : Nat) : Int)
  if n < 0 then -v else v

/-- The Go expression `float64(usage) / (1024 * 1024 * 1024)` as an exact rational.
The divisor is `2^30` and the dividend is `0` or has magnitude in `[1, 2^63]`, so the
quotient has the same significand and an exponent in the normal range: it is a float64
and the IEEE division returns it unrounded. -/
def usageGB (usage : Int) : ℚ := (float64OfInt64 usage : ℚ) / (1024 * 1024 * 1024)

/-! ## Scan loop (`main`) -/

/-- Go `os.DirEntry`, as far as `main` looks at it: `Name()` and `IsDir()`. -/
structure DirEntry where
  name : String
  isDir : Bool
  deriving DecidableEq, Repr

/-- The outside world during one scan cycle.  Outcomes of the sub-process, of the HTTP
client and of the clock are given per position of the entry in the directory listing. -/
structure World where
  /-- Outcome of `du -sb path` while the entry at position `i` is processed. -/
  du : Nat → String → Except Error String
  /-- Go `json.Marshal`. -/
  marshal : DiscordMessage → Except Error String
  /-- Outcome of `http.Post` while the entry at position `i` is processed. -/
  post : Nat → HttpRequest → Except Error Int
  /-- Formatted current time while the entry at position `i` is processed. -/
  now : Nat → String
  /-- Go `filepath.Join` of two elements. -/
  join : String → String → String
  /-- Go `fmt.Sprintf("%.2f", x)`. -/
  sprintf2f : ℚ → String

/-- The observable steps of a run.  Log lines carry their arguments, not the formatted
text and time stamp. -/
inductive Event
  /-- `log.Fatal` in `loadConfig`. -/
  | fatal (err : Error)
  /-- The two start-up log lines. -/
  | logStart (containersDirectory : String)
  /-- Log line "Error reading directory". -/
  | logReadDirError (err : Error)
  /-- Call `getDiskUsage(volumePath)`. -/
  | sample (volumePath : String)
  /-- Log line "Error getting disk usage for". -/
  | logSampleError (name : String) (err : Error)
  /-- Log line "Volume %s: %.2f GB". -/
  | logUsage (name : String) (usageGB : ℚ)
  /-- Call `sendDiscordNotification(config.DiscordWebhookURL, volume, reason, details)`. -/
  | notify (volume reason details : String)
  /-- One `http.Post` made by the notifier. -/
  | httpPost (req : HttpRequest)
  /-- Log line "Error sending notification". -/
  | logNotifyError (err : Error)
  deriving DecidableEq

/-- Body of the inner loop `for _, file := range files` of `main`, for the entry at
position `i` of the listing. -/
def processEntry (config : Config) (w : World) (i : Nat) (file : DirEntry) : List Event :=
  if !file.isDir || file.name == ".sftp" then []
  else
    let volumePath := w.join config.containersDirectory file.name
    match getDiskUsage (w.du i) volumePath with
    | (_, some err) => [.sample volumePath, .logSampleError file.name err]
    | (usage, none) =>
      let usageGB := usageGB usage
      [.sample volumePath, .logUsage file.name usageGB] ++
        if usageGB > 95 then
          let details := "Current usage: " ++ w.sprintf2f usageGB ++ " GB"
          let sent := sendDiscordNotification w.marshal (w.post i) (w.now i)
            config.discordWebhookURL file.name "High disk usage" details
          [.notify file.name "High disk usage" details] ++ sent.2.map .httpPost ++
            match sent.1 with
            | some err => [.logNotifyError err]
            | none => []
        else []

/-- The inner loop of `main` over the entries from position `i` on. -/
def scanFrom (config : Config) (w : World) : Nat → List DirEntry → List Event
  | _, [] => []
  | i, file :: files => processEntry config w i file ++ scanFrom config w (i + 1) files

/-- One tick of the ticker: outcome of `os.ReadDir` and the world during the cycle. -/
structure Tick where
  readDir : Except Error (List DirEntry)
  world : World

/-- Body of the outer loop `for range ticker.C` of `main`. -/
def scanCycle (config : Config) (t : Tick) : List Event :=
  match t.readDir with
  | .error err => [.logReadDirError err]
  | .ok files => scanFrom config t.world 0 files

/-- How a (finite prefix of a) run of the process ends. -/
inductive Status
  /-- Still in the ticker loop. -/
  | running
  /-- Left through `log.Fatal`. -/
  | exited
  /-- Run-time panic: `time.NewTicker` panics on a non-positive duration. -/
  | panicked
  deriving DecidableEq, Repr

/-- Go `main`, run for the given ticks.  The ticker duration is
`time.Duration(config.CheckInterval) * time.Second`, an `int64` product. -/
def main (readFile : Except Error String) (unmarshal : String → Except Error Config)
    (ticks : List Tick) : List Event × Status :=
  match loadConfig readFile unmarshal with
  | .error err => ([.fatal err], .exited)
  | .ok config =>
    if toInt64 (toInt64 config.checkInterval * 1000000000) ≤ 0 then
      ([.logStart config.containersDirectory], .panicked)
    else
      (.logStart config.containersDirectory :: ticks.flatMap (scanCycle config), .running)

/-! ## Specification-side definitions, trace projections and examples -/

/-- Spec wording: a string "starts with" a pattern. -/
def specStartsWith (s pat : String) : Bool := pat.data.isPrefixOf s.data

/-- Spec wording of C2: `p = u` if `u` starts with a scheme, `"http://" ++ u` otherwise. -/
def specWithScheme (u : String) : String :=
  if specStartsWith u "http://" || specStartsWith u "https://" then u else "http://" ++ u

/-- Spec wording of C2: remove exactly one trailing `/` when there is one. -/
def specStripOne (p : String) : String :=
  if p.data.getLast? = some '/' then ⟨p.data.dropLast⟩ else p

/-- Paths on which `getDiskUsage` was called, in order. -/
def sampledPaths (evs : List Event) : List String :=
  evs.filterMap fun ev => match ev with
    | .sample p => some p
    | _ => none

/-- Volume names of the usage log lines, in order. -/
def usageLogNames (evs : List Event) : List String :=
  evs.filterMap fun ev => match ev with
    | .logUsage name _ => some name
    | _ => none

/-- Volume names for which the notifier was called, in order. -/
def notifiedVolumes (evs : List Event) : List String :=
  evs.filterMap fun ev => match ev with
    | .notify volume _ _ => some volume
    | _ => none

/-- HTTP requests made, in order. -/
def httpRequests (evs : List Event) : List HttpRequest :=
  evs.filterMap fun ev => match ev with
    | .httpPost req => some req
    | _ => none

/-- Errors of the "Error sending notification" log lines, in order. -/
def notifyErrors (evs : List Event) : List Error :=
  evs.filterMap fun ev => match ev with
    | .logNotifyError err => some err
    | _ => none

/-- Spec wording: an entry is eligible when it is a directory and is not named `.sftp`. -/
def eligible (file : DirEntry) : Bool := file.isDir && file.name != ".sftp"

/-- The path sampled for an entry: the root joined with the entry name. -/
def volumePath (config : Config) (w : World) (file : DirEntry) : String :=
  w.join config.containersDirectory file.name

/-- What `processEntry` does after a successful sample of `usage` bytes. -/
def afterSample (config : Config) (w : World) (i : Nat) (file : DirEntry) (usage : Int) :
    List Event :=
  [.sample (volumePath config w file), .logUsage file.name (usageGB usage)] ++
    if usageGB usage > 95 then
      [.notify file.name "High disk usage"
          ("Current usage: " ++ w.sprintf2f (usageGB usage) ++ " GB")] ++
        (sendDiscordNotification w.marshal (w.post i) (w.now i) config.discordWebhookURL
          file.name "High disk usage"
          ("Current usage: " ++ w.sprintf2f (usageGB usage) ++ " GB")).2.map .httpPost ++
        match (sendDiscordNotification w.marshal (w.post i) (w.now i) config.discordWebhookURL
          file.name "High disk usage"
          ("Current usage: " ++ w.sprintf2f (usageGB usage) ++ " GB")).1 with
        | some err => [.logNotifyError err]
        | none => []
    else []

/-- Did the sample of the entry at position `i` succeed? -/
def sampleOk (config : Config) (w : World) (i : Nat) (file : DirEntry) : Bool :=
  (getDiskUsage (w.du i) (volumePath config w file)).2.isNone

/-- Spec wording: a decimal digit. -/
def isDigit (c : Char) : Bool := decide ('0' ≤ c) && decide (c ≤ '9')

/-- Spec wording: the value of a string of decimal digits, most significant first. -/
def digitsValueFrom (acc : Nat) (ds : List Char) : Nat :=
  ds.foldl (fun v c => 10 * v + (c.toNat - '0'.toNat)) acc

/-- Spec wording: `tok` is a base-10 integer literal (an optional sign followed by decimal
digits only, at least one) and `n` is its value. -/
def IntLiteral (tok : List Char) (n : Int) : Prop :=
  ∃ digits : List Char, digits ≠ [] ∧ (∀ c ∈ digits, isDigit c = true) ∧
    ((tok = digits ∧ n = (digitsValueFrom 0 digits : Int)) ∨
      (tok = '+' :: digits ∧ n = (digitsValueFrom 0 digits : Int)) ∨
      (tok = '-' :: digits ∧ n = -(digitsValueFrom 0 digits : Int)))

/-- The part of `parseInt` after the call of `parseUint`. -/
def intOfUint (neg : Bool) (r : Nat × Option NumErr) : Int × Option NumErr :=
  match r with
  | (_, some .syntaxErr) => (0, some .syntaxErr)
  | (un, _) =>
    let cutoff : Nat := 2 ^ 63
    if !neg && decide (un ≥ cutoff) then ((cutoff : Int) - 1, some .rangeErr)
    else if neg && decide (un > cutoff) then (-(cutoff : Int), some .rangeErr)
    else
      let n := toInt64 un
      (if neg then toInt64 (-n) else n, none)

/-- Spec wording: `tok` is the first white-space-delimited token of `output`: only white
space comes before it, it is non-empty and free of white space, and it is followed by
white space or by the end of the output. -/
def FirstToken (output tok : List Char) : Prop :=
  ∃ pre rest : List Char, output = pre ++ tok ++ rest ∧ (∀ c ∈ pre, isSpace c = true) ∧
    tok ≠ [] ∧ (∀ c ∈ tok, isSpace c = false) ∧ (∀ c, rest.head? = some c → isSpace c = true)

/-- The worlds `w` and `w2` cannot be told apart from listing position `i` on: same library
functions, and the same sub-process, HTTP and clock outcomes at every position `j ≥ i`. -/
def agreeFrom (i : Nat) (w w2 : World) : Prop :=
  w2.marshal = w.marshal ∧ w2.join = w.join ∧ w2.sprintf2f = w.sprintf2f ∧
    ∀ j, i ≤ j → w2.du j = w.du j ∧ w2.post j = w.post j ∧ w2.now j = w.now j

/-- An example configuration: root `/volumes`, no webhook. -/
def exampleConfig : Config :=
  { containersDirectory := "/volumes", panelURL := "example.com/", adminAPIKey := "",
    clientAPIKey := "", checkInterval := 1, discordWebhookURL := "" }

/-- The example configuration with a webhook. -/
def exampleConfigWebhook : Config :=
  { exampleConfig with discordWebhookURL := "https://discord.example/hook" }

/-- An example world: `du` reports 10 GiB for `/volumes/a`, 120 GiB for `/volumes/b`,
one byte more than 95 GiB for `/volumes/c`, exactly 95 GiB for `/volumes/d` and fails for
every other path; the webhook answers 200. -/
def exampleWorld : World :=
  { du := fun _ path =>
      if path == "/volumes/a" then .ok "10737418240\t/volumes/a\n"
      else if path == "/volumes/b" then .ok "128849018880\t/volumes/b\n"
      else if path == "/volumes/c" then .ok "102005473281\t/volumes/c\n"
      else if path == "/volumes/d" then .ok "102005473280\t/volumes/d\n"
      else .error (.external "exit status 1")
    marshal := fun m => .ok m.content
    post := fun _ _ => .ok 200
    now := fun _ => "2024-01-01 00:00:00"
    join := fun dir name => dir ++ "/" ++ name
    sprintf2f := fun _ => "0.00" }

/-- The example world, except that every sample before listing position 4 succeeds with
one byte. -/
def exampleWorldEarlyOk : World :=
  { exampleWorld with
    du := fun i path => if i < 4 then Except.ok ("1\t" ++ path) else exampleWorld.du i path }

/-- An example listing: a file, the reserved `.sftp`, and four directories. -/
def exampleListing : List DirEntry :=
  [{ name := "notes.txt", isDir := false }, { name := ".sftp", isDir := true },
   { name := "a", isDir := true }, { name := "b", isDir := true },
   { name := "broken", isDir := true }, { name := ".sftp2", isDir := true }]

/-! ## Lemmas -/

theorem hasPrefix_iff (s pre : String) : hasPrefix s pre = true ↔ pre.data <+: s.data := by
  unfold hasPrefix
  simp only [Bool.and_eq_true, decide_eq_true_eq, beq_iff_eq, ge_iff_le]
  constructor
  · rintro ⟨_, h⟩
    rw [← h]
    exact List.take_prefix _ _
  · intro h
    exact ⟨h.length_le, List.prefix_iff_eq_take.mp h |>.symm⟩

theorem hasSuffix_iff (s suf : String) : hasSuffix s suf = true ↔ suf.data <:+ s.data := by
  unfold hasSuffix
  simp only [Bool.and_eq_true, decide_eq_true_eq, beq_iff_eq, ge_iff_le]
  constructor
  · rintro ⟨_, h⟩
    rw [← h]
    exact List.drop_suffix _ _
  · intro h
    exact ⟨h.length_le, List.suffix_iff_eq_drop.mp h |>.symm⟩

theorem hasSuffix_slash_iff (s : String) : hasSuffix s "/" = true ↔ s.data.getLast? = some '/' := by
  rw [hasSuffix_iff]
  show ['/'] <:+ s.data ↔ _
  constructor
  · rintro ⟨t, ht⟩
    rw [← ht]; simp
  · intro h
    obtain ⟨t, ht⟩ : ∃ t, s.data = t ++ ['/'] := by
      rcases List.eq_nil_or_concat s.data with h0 | ⟨t, c, htc⟩
      · rw [h0] at h; simp at h
      · rw [htc] at h; simp at h; exact ⟨t, by rw [htc, h]; simp⟩
    exact ⟨t, ht.symm⟩

theorem trimSuffix_slash (s : String) : trimSuffix s "/" = specStripOne s := by
  unfold trimSuffix specStripOne
  by_cases h : hasSuffix s "/" = true
  · rw [if_pos h, if_pos ((hasSuffix_slash_iff s).mp h)]
    congr 1
    show List.take (s.data.length - 1) s.data = _
    rw [List.dropLast_eq_take]
  · rw [if_neg h, if_neg (fun h2 => h ((hasSuffix_slash_iff s).mpr h2))]

theorem specStartsWith_eq (s pat : String) : specStartsWith s pat = hasPrefix s pat := by
  rw [Bool.eq_iff_iff, hasPrefix_iff]
  unfold specStartsWith
  exact List.isPrefixOf_iff_prefix

theorem normalizePanelURL_eq_spec (u : String) :
    normalizePanelURL u = specStripOne (specWithScheme u) := by
  unfold normalizePanelURL specWithScheme
  simp only [specStartsWith_eq, trimSuffix_slash]
  cases hasPrefix u "http://" <;> cases hasPrefix u "https://" <;> simp

theorem data_eq_nil_iff (u : String) : u.data = [] ↔ u = "" := by
  constructor
  · intro h; exact String.ext h
  · intro h; rw [h]

theorem specStripOne_data_concat (s : String) (t : List Char) (c : Char)
    (h : s.data = t ++ [c]) :
    (specStripOne s).data = if c = '/' then t else t ++ [c] := by
  unfold specStripOne
  rw [h, List.getLast?_concat]
  by_cases hc : c = '/'
  · simp [hc]
  · have : ¬ (some c = some '/') := fun e => hc (Option.some.inj e)
    rw [if_neg this, if_neg hc, h]

theorem slash_suffix_concat (t : List Char) (c : Char) : ['/'] <:+ t ++ [c] ↔ c = '/' := by
  rw [← List.reverse_prefix]
  simp [eq_comm]

theorem slash2_suffix_concat (t : List Char) (c : Char) :
    ['/', '/'] <:+ t ++ [c] ↔ c = '/' ∧ ['/'] <:+ t := by
  rw [← List.reverse_prefix, ← List.reverse_prefix]
  simp [eq_comm]

theorem processEntry_skip (config : Config) (w : World) (i : Nat) (file : DirEntry)
    (h : eligible file = false) : processEntry config w i file = [] := by
  unfold processEntry
  unfold eligible at h
  have : (!file.isDir || file.name == ".sftp") = true := by
    cases hd : file.isDir <;> simp_all
  rw [if_pos this]

theorem eligible_cond (file : DirEntry) (h : eligible file = true) :
    ¬ ((!file.isDir || file.name == ".sftp") = true) := by
  unfold eligible at h
  cases hd : file.isDir <;> simp_all

theorem processEntry_sampleError (config : Config) (w : World) (i : Nat) (file : DirEntry)
    (h : eligible file = true) (v : Int) (err : Error)
    (hs : getDiskUsage (w.du i) (volumePath config w file) = (v, some err)) :
    processEntry config w i file =
      [.sample (volumePath config w file), .logSampleError file.name err] := by
  unfold processEntry
  rw [if_neg (eligible_cond file h)]
  unfold volumePath at hs
  simp only [hs]
  rfl

theorem processEntry_sampleOk (config : Config) (w : World) (i : Nat) (file : DirEntry)
    (h : eligible file = true) (usage : Int)
    (hs : getDiskUsage (w.du i) (volumePath config w file) = (usage, none)) :
    processEntry config w i file = afterSample config w i file usage := by
  unfold processEntry
  rw [if_neg (eligible_cond file h)]
  unfold volumePath at hs
  simp only [hs]
  rfl

theorem filterMap_httpPost_none {β : Type} (f : Event → Option β)
    (hf : ∀ req, f (.httpPost req) = none) (reqs : List HttpRequest) :
    (reqs.map Event.httpPost).filterMap f = [] := by
  induction reqs with
  | nil => rfl
  | cons r rs ih => simp [List.filterMap_cons, hf, ih]

theorem sampledPaths_afterSample (config : Config) (w : World) (i : Nat) (file : DirEntry)
    (usage : Int) :
    sampledPaths (afterSample config w i file usage) = [volumePath config w file] := by
  unfold afterSample sampledPaths
  split
  · rw [List.filterMap_append, List.filterMap_append, List.filterMap_append,
      filterMap_httpPost_none _ (fun _ => rfl)]
    split <;> rfl
  · rfl

theorem usageLogNames_afterSample (config : Config) (w : World) (i : Nat) (file : DirEntry)
    (usage : Int) :
    usageLogNames (afterSample config w i file usage) = [file.name] := by
  unfold afterSample usageLogNames
  split
  · rw [List.filterMap_append, List.filterMap_append, List.filterMap_append,
      filterMap_httpPost_none _ (fun _ => rfl)]
    split <;> rfl
  · rfl

theorem notifiedVolumes_afterSample (config : Config) (w : World) (i : Nat) (file : DirEntry)
    (usage : Int) :
    notifiedVolumes (afterSample config w i file usage) =
      if usageGB usage > 95 then [file.name] else [] := by
  unfold afterSample notifiedVolumes
  split
  · rw [List.filterMap_append, List.filterMap_append, List.filterMap_append,
      filterMap_httpPost_none _ (fun _ => rfl)]
    split <;> rfl
  · rfl

theorem filterMap_httpPost_self (reqs : List HttpRequest) :
    (reqs.map Event.httpPost).filterMap (fun ev => match ev with
      | .httpPost req => some req
      | _ => none) = reqs := by
  induction reqs with
  | nil => rfl
  | cons r rs ih => simp [List.filterMap_cons, ih]

theorem httpRequests_afterSample (config : Config) (w : World) (i : Nat) (file : DirEntry)
    (usage : Int) :
    httpRequests (afterSample config w i file usage) =
      if usageGB usage > 95 then
        (sendDiscordNotification w.marshal (w.post i) (w.now i) config.discordWebhookURL
          file.name "High disk usage"
          ("Current usage: " ++ w.sprintf2f (usageGB usage) ++ " GB")).2
      else [] := by
  unfold afterSample httpRequests
  split
  · rw [List.filterMap_append, List.filterMap_append, List.filterMap_append,
      filterMap_httpPost_self]
    split <;> simp
  · rfl

theorem notifyErrors_afterSample (config : Config) (w : World) (i : Nat) (file : DirEntry)
    (usage : Int) :
    notifyErrors (afterSample config w i file usage) =
      if usageGB usage > 95 then
        (sendDiscordNotification w.marshal (w.post i) (w.now i) config.discordWebhookURL
          file.name "High disk usage"
          ("Current usage: " ++ w.sprintf2f (usageGB usage) ++ " GB")).1.toList
      else [] := by
  unfold afterSample notifyErrors
  split
  · rw [List.filterMap_append, List.filterMap_append, List.filterMap_append,
      filterMap_httpPost_none _ (fun _ => rfl)]
    split <;> simp [*]
  · rfl

theorem getDiskUsage_cases (run : String → Except Error String) (path : String) :
    (∃ n, getDiskUsage run path = (n, none)) ∨ (∃ err, getDiskUsage run path = (0, some err)) := by
  unfold getDiskUsage
  split
  · exact Or.inr ⟨_, rfl⟩
  · split
    · exact Or.inr ⟨_, rfl⟩
    · split
      · exact Or.inr ⟨_, rfl⟩
      · exact Or.inl ⟨_, rfl⟩

theorem sampledPaths_processEntry (config : Config) (w : World) (i : Nat) (file : DirEntry) :
    sampledPaths (processEntry config w i file) =
      if eligible file then [volumePath config w file] else [] := by
  cases h : eligible file
  · rw [processEntry_skip config w i file h]; rfl
  · rcases getDiskUsage_cases (w.du i) (volumePath config w file) with ⟨n, hn⟩ | ⟨err, he⟩
    · rw [processEntry_sampleOk config w i file h n hn, sampledPaths_afterSample]; rfl
    · rw [processEntry_sampleError config w i file h 0 err he]; rfl

theorem sampledPaths_append (a b : List Event) :
    sampledPaths (a ++ b) = sampledPaths a ++ sampledPaths b := by
  unfold sampledPaths; exact List.filterMap_append _ _ _

theorem sampledPaths_scanFrom (config : Config) (w : World) (files : List DirEntry) (i : Nat) :
    sampledPaths (scanFrom config w i files) =
      (files.filter eligible).map (volumePath config w) := by
  induction files generalizing i with
  | nil => rfl
  | cons f fs ih =>
    rw [scanFrom, sampledPaths_append, sampledPaths_processEntry, ih, List.filter_cons]
    cases eligible f <;> simp

theorem sampledPaths_scanCycle (config : Config) (w : World) (files : List DirEntry) :
    sampledPaths (scanCycle config { readDir := .ok files, world := w }) =
      (files.filter fun file => file.isDir && file.name != ".sftp").map
        fun file => w.join config.containersDirectory file.name := by
  show sampledPaths (scanFrom config w 0 files) = _
  rw [sampledPaths_scanFrom]
  rfl

theorem bitLength_le (fuel : Nat) : ∀ (a k : Nat), a < 2 ^ k → bitLength fuel a ≤ k := by
  induction fuel with
  | zero => intro a k _; simp [bitLength]
  | succ f ih =>
    intro a k h
    unfold bitLength
    split
    · exact Nat.zero_le _
    · rename_i ha
      cases k with
      | zero => simp at h; exact absurd h ha
      | succ k =>
        have : a / 2 < 2 ^ k := by
          rw [Nat.pow_succ] at h
          omega
        have := ih (a / 2) k this
        omega

theorem bitLength_zero (fuel : Nat) : bitLength fuel 0 = 0 := by
  cases fuel <;> simp [bitLength]

theorem pow_bitLength_le (fuel : Nat) : ∀ a : Nat, a ≠ 0 → 2 ^ (bitLength fuel a - 1) ≤ a := by
  induction fuel with
  | zero => intro a ha; simp [bitLength]; omega
  | succ f ih =>
    intro a ha
    unfold bitLength
    rw [if_neg ha, Nat.add_sub_cancel]
    by_cases hb : bitLength f (a / 2) = 0
    · rw [hb]; simp; omega
    · have h2 : a / 2 ≠ 0 := by
        intro h0; rw [h0, bitLength_zero] at hb; exact hb rfl
      have h := ih (a / 2) h2
      have : 2 ^ bitLength f (a / 2) = 2 * 2 ^ (bitLength f (a / 2) - 1) := by
        rw [← Nat.pow_succ']
        congr 1
        omega
      omega

/-- Rounded magnitude of `float64(n)`. -/
theorem float64OfInt64_small (n : Int) (h : n.natAbs < 2 ^ 53) : float64OfInt64 n = n := by
  unfold float64OfInt64
  have he : bitLength 64 n.natAbs - 53 = 0 := by
    have := bitLength_le 64 n.natAbs 53 h
    omega
  simp only [he, pow_zero, Nat.div_one, Nat.mod_one, Nat.mul_one]
  have : ¬ (2 * 0 > 1 ∨ 2 * 0 = 1 ∧ n.natAbs % 2 = 1) := by omega
  rw [if_neg this]
  split <;> omega

theorem float64OfInt64_large_natAbs (n : Int) (h : 2 ^ 53 ≤ n.natAbs) :
    2 ^ 53 ≤ (float64OfInt64 n).natAbs := by
  unfold float64OfInt64
  simp only
  generalize he : bitLength 64 n.natAbs - 53 = e
  have ha : n.natAbs ≠ 0 := by
    have : 0 < 2 ^ 53 := by norm_num
    omega
  have hp := pow_bitLength_le 64 n.natAbs ha
  have hq : 2 ^ 53 ≤ n.natAbs / 2 ^ e * 2 ^ e := by
    by_cases h0 : e = 0
    · subst h0; simpa using h
    · have hbl : bitLength 64 n.natAbs - 1 = 52 + e := by omega
      rw [hbl, Nat.pow_add] at hp
      have h52 : 2 ^ 52 ≤ n.natAbs / 2 ^ e := by
        rw [Nat.le_div_iff_mul_le (Nat.pos_pow_of_pos _ (by norm_num))]
        exact hp
      have h1 : 1 ≤ e := Nat.one_le_iff_ne_zero.mpr h0
      calc 2 ^ 53 = 2 ^ 52 * 2 ^ 1 := by norm_num
        _ ≤ n.natAbs / 2 ^ e * 2 ^ e := Nat.mul_le_mul h52 (Nat.pow_le_pow_right (by norm_num) h1)
  have hq1 : n.natAbs / 2 ^ e * 2 ^ e ≤
      (if 2 * (n.natAbs % 2 ^ e) > 2 ^ e ∨
          (2 * (n.natAbs % 2 ^ e) = 2 ^ e ∧ n.natAbs / 2 ^ e % 2 = 1)
        then n.natAbs / 2 ^ e + 1 else n.natAbs / 2 ^ e) * 2 ^ e := by
    apply Nat.mul_le_mul_right
    split <;> omega
  split
  · rw [Int.natAbs_neg, Int.natAbs_ofNat]; exact le_trans hq hq1
  · rw [Int.natAbs_ofNat]; exact le_trans hq hq1

theorem float64OfInt64_sign (n : Int) :
    (0 ≤ n → 0 ≤ float64OfInt64 n) ∧ (n < 0 → float64OfInt64 n ≤ 0) := by
  unfold float64OfInt64
  constructor
  · intro h
    simp only
    rw [if_neg (by omega)]
    exact Int.ofNat_nonneg _
  · intro h
    simp only
    rw [if_pos h]
    have := Int.ofNat_nonneg ((if 2 * (n.natAbs % 2 ^ (bitLength 64 n.natAbs - 53)) >
          2 ^ (bitLength 64 n.natAbs - 53) ∨
        (2 * (n.natAbs % 2 ^ (bitLength 64 n.natAbs - 53)) =
          2 ^ (bitLength 64 n.natAbs - 53) ∧
          n.natAbs / 2 ^ (bitLength 64 n.natAbs - 53) % 2 = 1)
      then n.natAbs / 2 ^ (bitLength 64 n.natAbs - 53) + 1
      else n.natAbs / 2 ^ (bitLength 64 n.natAbs - 53)) * 2 ^ (bitLength 64 n.natAbs - 53))
    omega

theorem float64OfInt64_gt_iff (n : Int) :
    float64OfInt64 n > 102005473280 ↔ n > 102005473280 := by
  by_cases h : n.natAbs < 2 ^ 53
  · rw [float64OfInt64_small n h]
  · have hl := float64OfInt64_large_natAbs n (Nat.le_of_not_lt h)
    have hs := float64OfInt64_sign n
    have h53 : (2 : Nat) ^ 53 = 9007199254740992 := by norm_num
    rw [h53] at hl h
    omega

theorem usageGB_gt_iff (n : Int) : usageGB n > 95 ↔ n > 102005473280 := by
  rw [← float64OfInt64_gt_iff]
  unfold usageGB
  rw [gt_iff_lt, lt_div_iff₀ (by norm_num)]
  have : (95 : ℚ) * (1024 * 1024 * 1024) = ((102005473280 : Int) : ℚ) := by norm_num
  rw [this, Int.cast_lt]

theorem char_le_iff (a b : Char) : a ≤ b ↔ a.toNat ≤ b.toNat := by
  rfl

theorem isDigit_iff (c : Char) : isDigit c = true ↔ 48 ≤ c.toNat ∧ c.toNat ≤ 57 := by
  unfold isDigit
  simp only [Bool.and_eq_true, decide_eq_true_eq, char_le_iff]
  rfl

theorem parseUintLoop_nondigit (cutoff maxVal n : Nat) (c : Char) (cs : List Char)
    (h : isDigit c = false) :
    parseUintLoop 10 cutoff maxVal n (c :: cs) = (0, some .syntaxErr) := by
  have hc : ¬ ('0' ≤ c ∧ c ≤ '9') := by
    intro hh
    have : isDigit c = true := by
      unfold isDigit; simp [hh.1, hh.2]
    rw [h] at this; exact Bool.false_ne_true this
  unfold parseUintLoop
  simp only [if_neg hc]
  split
  · rfl
  · rename_i d hd
    split at hd
    · have hd2 := Option.some.inj hd
      have : d ≥ 10 := by omega
      rw [if_pos this]
    · exact absurd hd (by simp)

theorem parseUintLoop_digit (cutoff maxVal n : Nat) (c : Char) (cs : List Char)
    (h : isDigit c = true) :
    parseUintLoop 10 cutoff maxVal n (c :: cs) =
      if n ≥ cutoff then (maxVal, some .rangeErr)
      else if (n * 10 % 2 ^ 64 + (c.toNat - 48)) % 2 ^ 64 < n * 10 % 2 ^ 64 ∨
          (n * 10 % 2 ^ 64 + (c.toNat - 48)) % 2 ^ 64 > maxVal then
        (maxVal, some .rangeErr)
      else parseUintLoop 10 cutoff maxVal ((n * 10 % 2 ^ 64 + (c.toNat - 48)) % 2 ^ 64) cs := by
  have hc : '0' ≤ c ∧ c ≤ '9' := by
    unfold isDigit at h
    simpa using h
  have hr := (isDigit_iff c).mp h
  conv_lhs => unfold parseUintLoop
  simp only [if_pos hc]
  have : ¬ (c.toNat - '0'.toNat ≥ 10) := by
    have : '0'.toNat = 48 := rfl
    omega
  rw [if_neg this]
  rfl

theorem digitsValueFrom_cons (acc : Nat) (c : Char) (cs : List Char) :
    digitsValueFrom acc (c :: cs) = digitsValueFrom (10 * acc + (c.toNat - 48)) cs := rfl

theorem le_digitsValueFrom (ds : List Char) : ∀ acc, acc ≤ digitsValueFrom acc ds := by
  induction ds with
  | nil => intro acc; exact Nat.le_refl _
  | cons c cs ih =>
    intro acc
    rw [digitsValueFrom_cons]
    have := ih (10 * acc + (c.toNat - 48))
    omega

theorem parseUintLoop_ok_iff (ds : List Char) :
    ∀ (acc v : Nat), acc < 2 ^ 64 →
      (parseUintLoop 10 ((2 ^ 64 - 1) / 10 + 1) (2 ^ 64 - 1) acc ds = (v, none) ↔
        (∀ c ∈ ds, isDigit c = true) ∧ v = digitsValueFrom acc ds ∧ v < 2 ^ 64) := by
  induction ds with
  | nil =>
    intro acc v hacc
    simp only [parseUintLoop, List.not_mem_nil, false_implies, implies_true, true_and,
      Prod.mk.injEq, and_true]
    constructor
    · intro h; subst h; exact ⟨rfl, hacc⟩
    · intro h; exact h.1.symm
  | cons c cs ih =>
    intro acc v hacc
    cases hd : isDigit c
    · rw [parseUintLoop_nondigit _ _ _ _ _ hd]
      constructor
      · intro h; simp at h
      · intro h
        have := h.1 c (List.mem_cons_self _ _)
        rw [hd] at this; exact absurd this Bool.false_ne_true
    · rw [parseUintLoop_digit _ _ _ _ _ hd, digitsValueFrom_cons]
      have hr := (isDigit_iff c).mp hd
      have hge := le_digitsValueFrom cs (10 * acc + (c.toNat - 48))
      have hall : (∀ x ∈ c :: cs, isDigit x = true) ↔ ∀ x ∈ cs, isDigit x = true := by
        simp [hd]
      rw [hall]
      norm_num only at hacc hge ⊢
      split
      · constructor
        · intro h; simp at h
        · intro h; omega
      · split
        · constructor
          · intro h; simp at h
          · intro h; omega
        · have hn : (acc * 10 % 18446744073709551616 + (c.toNat - 48)) % 18446744073709551616 =
              10 * acc + (c.toNat - 48) := by omega
          rw [hn]
          have := ih (10 * acc + (c.toNat - 48)) v (by norm_num only; omega)
          norm_num only at this
          exact this

theorem parseUintLoop_err (ds : List Char) :
    ∀ (acc v : Nat) (e : NumErr),
      parseUintLoop 10 ((2 ^ 64 - 1) / 10 + 1) (2 ^ 64 - 1) acc ds = (v, some e) →
        e = .syntaxErr ∨ v = 2 ^ 64 - 1 := by
  induction ds with
  | nil => intro acc v e h; simp [parseUintLoop] at h
  | cons c cs ih =>
    intro acc v e h
    cases hd : isDigit c
    · rw [parseUintLoop_nondigit _ _ _ _ _ hd] at h
      simp only [Prod.mk.injEq, Option.some.injEq] at h
      exact Or.inl h.2.symm
    · rw [parseUintLoop_digit _ _ _ _ _ hd] at h
      split at h
      · simp only [Prod.mk.injEq, Option.some.injEq] at h
        exact Or.inr h.1.symm
      · split at h
        · simp only [Prod.mk.injEq, Option.some.injEq] at h
          exact Or.inr h.1.symm
        · exact ih _ v e h

theorem parseUint_ok_iff (ds : List Char) (v : Nat) :
    parseUint ⟨ds⟩ = (v, none) ↔
      ds ≠ [] ∧ (∀ c ∈ ds, isDigit c = true) ∧ v = digitsValueFrom 0 ds ∧ v < 2 ^ 64 := by
  unfold parseUint
  by_cases h : ds = []
  · subst h
    simp
  · have : ((⟨ds⟩ : String) == "") = false := by
      rw [beq_eq_false_iff_ne]
      intro e
      exact h (congrArg String.data e)
    rw [this]
    simp only [Bool.false_eq_true, if_false, ne_eq, h, not_false_eq_true, true_and]
    exact parseUintLoop_ok_iff ds 0 v (by norm_num)

theorem parseUint_err (ds : List Char) (v : Nat) (e : NumErr)
    (h : parseUint ⟨ds⟩ = (v, some e)) : e = .syntaxErr ∨ v = 2 ^ 64 - 1 := by
  unfold parseUint at h
  split at h
  · simp only [Prod.mk.injEq, Option.some.injEq] at h
    exact Or.inl h.2.symm
  · exact parseUintLoop_err ds 0 v e h

theorem parseInt_cons (s : String) (c : Char) (rest : List Char) (h : s.data = c :: rest) :
    parseInt s =
      intOfUint (decide (c = '-'))
        (parseUint ⟨if c = '+' ∨ c = '-' then rest else c :: rest⟩) := by
  unfold parseInt
  rw [h]
  by_cases hp : c = '+'
  · subst hp
    rfl
  · by_cases hm : c = '-'
    · subst hm
      rfl
    · simp only [if_neg hp, if_neg hm, hp, hm, or_self, if_false, decide_False]
      rfl

theorem toInt64_eq (x : Int) :
    toInt64 x = (x + 9223372036854775808) % 18446744073709551616 - 9223372036854775808 := by
  unfold toInt64; norm_num

theorem intOfUint_ok_iff (neg : Bool) (ds : List Char) (n : Int) :
    intOfUint neg (parseUint ⟨ds⟩) = (n, none) ↔
      ds ≠ [] ∧ (∀ c ∈ ds, isDigit c = true) ∧
        n = (if neg then -(digitsValueFrom 0 ds : Int) else (digitsValueFrom 0 ds : Int)) ∧
        -2 ^ 63 ≤ n ∧ n < 2 ^ 63 := by
  rcases hpu : parseUint ⟨ds⟩ with ⟨un, _ | e⟩
  · obtain ⟨hne, hall, hv, hlt⟩ := (parseUint_ok_iff ds un).mp hpu
    rw [← hv]
    simp only [intOfUint, hne, ne_eq, not_false_eq_true, hall, implies_true, true_and,
      toInt64_eq]
    norm_num only at hlt ⊢
    cases neg
    · simp only [Bool.not_false, Bool.true_and, decide_eq_true_eq, Bool.false_and,
        Bool.false_eq_true, if_false]
      split
      · constructor
        · intro h; simp at h
        · rintro ⟨-, h1, h2, h3⟩; omega
      · simp only [Prod.mk.injEq, and_true]
        constructor
        · intro h; refine ⟨hall, ?_⟩; omega
        · rintro ⟨-, h1, h2, h3⟩; omega
    · simp only [Bool.not_true, Bool.false_and, Bool.false_eq_true, if_false, Bool.true_and,
        decide_eq_true_eq, if_true]
      split
      · constructor
        · intro h; simp at h
        · rintro ⟨-, h1, h2, h3⟩; omega
      · simp only [Prod.mk.injEq, and_true]
        constructor
        · intro h; refine ⟨hall, ?_⟩; omega
        · rintro ⟨-, h1, h2, h3⟩; omega
  · have hno : ¬ (ds ≠ [] ∧ (∀ c ∈ ds, isDigit c = true) ∧
        n = (if neg then -(digitsValueFrom 0 ds : Int) else (digitsValueFrom 0 ds : Int)) ∧
        -2 ^ 63 ≤ n ∧ n < 2 ^ 63) := by
      rintro ⟨h1, h2, h3, h4, h5⟩
      by_cases hlt : digitsValueFrom 0 ds < 2 ^ 64
      · have := (parseUint_ok_iff ds (digitsValueFrom 0 ds)).mpr ⟨h1, h2, rfl, hlt⟩
        rw [hpu] at this
        simp at this
      · norm_num only at hlt h4 h5
        split at h3 <;> omega
    simp only [hno, iff_false]
    cases e with
    | syntaxErr => simp [intOfUint]
    | rangeErr =>
      have hun : un = 2 ^ 64 - 1 := by
        rcases parseUint_err ds un _ hpu with h | h
        · exact absurd h (by decide)
        · exact h
      subst hun
      cases neg <;> simp [intOfUint]

theorem parseInt_ok_iff (s : String) (n : Int) :
    parseInt s = (n, none) ↔ IntLiteral s.data n ∧ -2 ^ 63 ≤ n ∧ n < 2 ^ 63 := by
  rcases hs : s.data with _ | ⟨c, rest⟩
  · have : parseInt s = (0, some .syntaxErr) := by
      unfold parseInt; rw [hs]
    rw [this]
    constructor
    · intro h; simp at h
    · rintro ⟨⟨ds, hne, -, h | h | h⟩, -⟩
      · exact absurd h.1.symm hne
      · exact absurd h.1 (by simp)
      · exact absurd h.1 (by simp)
  · rw [parseInt_cons s c rest hs, intOfUint_ok_iff]
    have hplus : isDigit '+' = false := by decide
    have hminus : isDigit '-' = false := by decide
    by_cases hp : c = '+'
    · subst hp
      simp only [true_or, if_true, show ¬ ('+' = '-') by decide, decide_False,
        Bool.false_eq_true, if_false]
      constructor
      · rintro ⟨h1, h2, h3, h4, h5⟩
        exact ⟨⟨rest, h1, h2, Or.inr (Or.inl ⟨rfl, h3⟩)⟩, h4, h5⟩
      · rintro ⟨⟨ds, hne, hall, h | h | h⟩, h4, h5⟩
        · have := hall '+' (by rw [← h.1]; exact List.mem_cons_self _ _)
          rw [hplus] at this; exact absurd this Bool.false_ne_true
        · obtain ⟨he, hn⟩ := h
          have : rest = ds := (List.cons.inj he).2
          subst this
          exact ⟨hne, hall, hn, h4, h5⟩
        · exact absurd (List.cons.inj h.1).1 (by decide)
    · by_cases hm : c = '-'
      · subst hm
        simp only [or_true, if_true, decide_True]
        constructor
        · rintro ⟨h1, h2, h3, h4, h5⟩
          exact ⟨⟨rest, h1, h2, Or.inr (Or.inr ⟨rfl, h3⟩)⟩, h4, h5⟩
        · rintro ⟨⟨ds, hne, hall, h | h | h⟩, h4, h5⟩
          · have := hall '-' (by rw [← h.1]; exact List.mem_cons_self _ _)
            rw [hminus] at this; exact absurd this Bool.false_ne_true
          · exact absurd (List.cons.inj h.1).1 (by decide)
          · obtain ⟨he, hn⟩ := h
            have : rest = ds := (List.cons.inj he).2
            subst this
            exact ⟨hne, hall, hn, h4, h5⟩
      · simp only [hp, hm, or_self, if_false, decide_False, Bool.false_eq_true]
        constructor
        · rintro ⟨h1, h2, h3, h4, h5⟩
          exact ⟨⟨c :: rest, h1, h2, Or.inl ⟨rfl, h3⟩⟩, h4, h5⟩
        · rintro ⟨⟨ds, hne, hall, h | h | h⟩, h4, h5⟩
          · obtain ⟨he, hn⟩ := h
            subst he
            exact ⟨hne, hall, hn, h4, h5⟩
          · exact absurd (List.cons.inj h.1).1 hp
          · exact absurd (List.cons.inj h.1).1 hm

theorem fieldsLoop_skip (pre l : List Char) (h : ∀ c ∈ pre, isSpace c = true) :
    fieldsLoop none (pre ++ l) = fieldsLoop none l := by
  induction pre with
  | nil => rfl
  | cons c cs ih =>
    have hc : isSpace c = true := h c (List.mem_cons_self _ _)
    rw [List.cons_append, fieldsLoop, if_pos hc]
    exact ih (fun x hx => h x (List.mem_cons_of_mem _ hx))

theorem fieldsLoop_token (tok rest : List Char) (h : ∀ c ∈ tok, isSpace c = false)
    (hr : ∀ c, rest.head? = some c → isSpace c = true) :
    ∀ acc : List Char, ∃ tl, fieldsLoop (some acc) (tok ++ rest) = ⟨acc.reverse ++ tok⟩ :: tl := by
  induction tok with
  | nil =>
    intro acc
    cases rest with
    | nil => exact ⟨[], by simp [fieldsLoop]⟩
    | cons c r =>
      have hc : isSpace c = true := hr c rfl
      exact ⟨fieldsLoop none r, by simp [fieldsLoop, hc]⟩
  | cons c t ih =>
    intro acc
    have hc : isSpace c = false := h c (List.mem_cons_self _ _)
    obtain ⟨tl, htl⟩ := ih (fun x hx => h x (List.mem_cons_of_mem _ hx)) (c :: acc)
    refine ⟨tl, ?_⟩
    rw [List.cons_append, fieldsLoop, if_neg (by rw [hc]; exact Bool.false_ne_true), htl]
    simp

theorem fields_of_firstToken (output : String) (tok : List Char)
    (h : FirstToken output.data tok) : ∃ tl, fields output = ⟨tok⟩ :: tl := by
  obtain ⟨pre, rest, hout, hpre, hne, htok, hrest⟩ := h
  unfold fields
  rw [hout, List.append_assoc, fieldsLoop_skip _ _ hpre]
  cases tok with
  | nil => exact absurd rfl hne
  | cons c t =>
    have hc : isSpace c = false := htok c (List.mem_cons_self _ _)
    obtain ⟨tl, htl⟩ := fieldsLoop_token t rest
      (fun x hx => htok x (List.mem_cons_of_mem _ hx)) hrest [c]
    refine ⟨tl, ?_⟩
    rw [List.cons_append, fieldsLoop, if_neg (by rw [hc]; exact Bool.false_ne_true), htl]
    rfl

theorem token_split (l : List Char) :
    ∃ tok rest : List Char, l = tok ++ rest ∧ (∀ c ∈ tok, isSpace c = false) ∧
      (∀ c, rest.head? = some c → isSpace c = true) := by
  induction l with
  | nil => exact ⟨[], [], rfl, by simp, by simp⟩
  | cons c cs ih =>
    cases hc : isSpace c
    · obtain ⟨tok, rest, h1, h2, h3⟩ := ih
      refine ⟨c :: tok, rest, by rw [h1]; rfl, ?_, h3⟩
      intro x hx
      rcases List.mem_cons.mp hx with rfl | hx
      · exact hc
      · exact h2 x hx
    · refine ⟨[], c :: cs, rfl, by simp, ?_⟩
      intro x hx
      simp only [List.head?_cons, Option.some.injEq] at hx
      rw [← hx]; exact hc

theorem fields_nil_or_firstToken (l : List Char) :
    ((∀ c ∈ l, isSpace c = true) ∧ fieldsLoop none l = []) ∨ ∃ tok, FirstToken l tok := by
  induction l with
  | nil => exact Or.inl ⟨by simp, rfl⟩
  | cons c cs ih =>
    cases hc : isSpace c
    · right
      obtain ⟨tok, rest, h1, h2, h3⟩ := token_split cs
      refine ⟨c :: tok, [], rest, by rw [h1]; rfl, by simp, by simp, ?_, h3⟩
      intro x hx
      rcases List.mem_cons.mp hx with rfl | hx
      · exact hc
      · exact h2 x hx
    · rcases ih with ⟨h1, h2⟩ | ⟨tok, pre, rest, h1, h2, h3, h4, h5⟩
      · left
        refine ⟨?_, ?_⟩
        · intro x hx
          rcases List.mem_cons.mp hx with rfl | hx
          · exact hc
          · exact h1 x hx
        · rw [fieldsLoop, if_pos hc, h2]
      · right
        refine ⟨tok, c :: pre, rest, by rw [h1]; rfl, ?_, h3, h4, h5⟩
        intro x hx
        rcases List.mem_cons.mp hx with rfl | hx
        · exact hc
        · exact h2 x hx

theorem getDiskUsage_ok_iff (run : String → Except Error String) (path output : String)
    (hrun : run path = .ok output) (n : Int) :
    getDiskUsage run path = (n, none) ↔
      ∃ tok, FirstToken output.data tok ∧ IntLiteral tok n ∧ -2 ^ 63 ≤ n ∧ n < 2 ^ 63 := by
  unfold getDiskUsage
  rw [hrun]
  simp only
  rcases fields_nil_or_firstToken output.data with ⟨hall, hnil⟩ | ⟨tok, htok⟩
  · have hf : fields output = [] := hnil
    rw [hf]
    simp only
    constructor
    · intro h; simp at h
    · rintro ⟨tok, ⟨pre, rest, hout, -, hne, hns, -⟩, -⟩
      cases tok with
      | nil => exact absurd rfl hne
      | cons c t =>
        have h1 : isSpace c = false := hns c (List.mem_cons_self _ _)
        have h2 : isSpace c = true := hall c (by rw [hout]; simp)
        rw [h1] at h2; exact absurd h2 Bool.false_ne_true
  · obtain ⟨tl, htl⟩ := fields_of_firstToken output tok htok
    rw [htl]
    simp only
    have key : parseInt ⟨tok⟩ = (n, none) ↔ IntLiteral tok n ∧ -2 ^ 63 ≤ n ∧ n < 2 ^ 63 :=
      parseInt_ok_iff ⟨tok⟩ n
    constructor
    · intro h
      refine ⟨tok, htok, key.mp ?_⟩
      rcases hp : parseInt ⟨tok⟩ with ⟨v, _ | e⟩
      · rw [hp] at h
        simp only [Prod.mk.injEq, and_true] at h
        rw [h]
      · rw [hp] at h
        simp at h
    · rintro ⟨tok2, htok2, hlit⟩
      obtain ⟨tl2, htl2⟩ := fields_of_firstToken output tok2 htok2
      rw [htl] at htl2
      have : tok = tok2 := congrArg String.data (List.cons.inj htl2).1
      subst this
      rw [key.mpr hlit]

theorem eligible_of (file : DirEntry) (hd : file.isDir = true) (hn : file.name ≠ ".sftp") :
    eligible file = true := by
  unfold eligible
  simp [hd, hn]

theorem processEntry_agree (config : Config) (w w2 : World) (i j : Nat) (file : DirEntry)
    (h : agreeFrom i w w2) (hj : i ≤ j) :
    processEntry config w2 j file = processEntry config w j file := by
  obtain ⟨h1, h2, h3, h4⟩ := h
  obtain ⟨h5, h6, h7⟩ := h4 j hj
  unfold processEntry
  rw [h1, h2, h3, h5, h6, h7]

theorem scanFrom_agree (config : Config) (w w2 : World) (i : Nat) (h : agreeFrom i w w2)
    (files : List DirEntry) :
    ∀ j, i ≤ j → scanFrom config w2 j files = scanFrom config w j files := by
  induction files with
  | nil => intro j _; rfl
  | cons f fs ih =>
    intro j hj
    rw [scanFrom, scanFrom, processEntry_agree config w w2 i j f h hj, ih (j + 1) (by omega)]

theorem scanFrom_append (config : Config) (w : World) (a b : List DirEntry) :
    ∀ i, scanFrom config w i (a ++ b) =
      scanFrom config w i a ++ scanFrom config w (i + a.length) b := by
  induction a with
  | nil => intro i; rfl
  | cons f fs ih =>
    intro i
    rw [List.cons_append, scanFrom, scanFrom, ih (i + 1), List.append_assoc, List.length_cons]
    congr 3
    omega

theorem usageLogNames_append (a b : List Event) :
    usageLogNames (a ++ b) = usageLogNames a ++ usageLogNames b := by
  unfold usageLogNames; exact List.filterMap_append _ _ _

theorem httpRequests_append (a b : List Event) :
    httpRequests (a ++ b) = httpRequests a ++ httpRequests b := by
  unfold httpRequests; exact List.filterMap_append _ _ _

theorem notifyErrors_append (a b : List Event) :
    notifyErrors (a ++ b) = notifyErrors a ++ notifyErrors b := by
  unfold notifyErrors; exact List.filterMap_append _ _ _

theorem usageLogNames_processEntry (config : Config) (w : World) (i : Nat) (file : DirEntry) :
    usageLogNames (processEntry config w i file) =
      if (eligible file && sampleOk config w i file) = true then [file.name] else [] := by
  cases h : eligible file
  · rw [processEntry_skip config w i file h]; rfl
  · rcases getDiskUsage_cases (w.du i) (volumePath config w file) with ⟨n, hn⟩ | ⟨err, he⟩
    · rw [processEntry_sampleOk config w i file h n hn, usageLogNames_afterSample]
      simp [sampleOk, hn]
    · rw [processEntry_sampleError config w i file h 0 err he]
      simp [sampleOk, he, usageLogNames]

theorem send_empty (marshal : DiscordMessage → Except Error String)
    (post : HttpRequest → Except Error Int) (now volume reason details : String) :
    sendDiscordNotification marshal post now "" volume reason details = (none, []) := rfl

theorem quiet_processEntry (config : Config) (w : World) (i : Nat) (file : DirEntry)
    (h : config.discordWebhookURL = "") :
    httpRequests (processEntry config w i file) = [] ∧
      notifyErrors (processEntry config w i file) = [] := by
  cases he : eligible file
  · rw [processEntry_skip config w i file he]; exact ⟨rfl, rfl⟩
  · rcases getDiskUsage_cases (w.du i) (volumePath config w file) with ⟨n, hn⟩ | ⟨err, herr⟩
    · rw [processEntry_sampleOk config w i file he n hn, httpRequests_afterSample,
        notifyErrors_afterSample, h, send_empty]
      simp
    · rw [processEntry_sampleError config w i file he 0 err herr]; exact ⟨rfl, rfl⟩

theorem quiet_scanFrom (config : Config) (w : World) (h : config.discordWebhookURL = "")
    (files : List DirEntry) :
    ∀ i, httpRequests (scanFrom config w i files) = [] ∧
      notifyErrors (scanFrom config w i files) = [] := by
  induction files with
  | nil => intro i; exact ⟨rfl, rfl⟩
  | cons f fs ih =>
    intro i
    rw [scanFrom, httpRequests_append, notifyErrors_append, (ih (i + 1)).1, (ih (i + 1)).2,
      (quiet_processEntry config w i f h).1, (quiet_processEntry config w i f h).2]
    exact ⟨rfl, rfl⟩

theorem usageLogNames_scanFrom (config : Config) (w : World) (files : List DirEntry) :
    ∀ i, usageLogNames (scanFrom config w i files) =
      ((files.enumFrom i).filter fun p => eligible p.2 && sampleOk config w p.1 p.2).map
        fun p => p.2.name := by
  induction files with
  | nil => intro i; rfl
  | cons f fs ih =>
    intro i
    rw [scanFrom, usageLogNames_append, usageLogNames_processEntry, ih (i + 1),
      List.enumFrom_cons, List.filter_cons]
    cases (eligible f && sampleOk config w i f) <;> simp

theorem lt_pow_bitLength (fuel : Nat) : ∀ a : Nat, a < 2 ^ fuel → a < 2 ^ bitLength fuel a := by
  induction fuel with
  | zero => intro a h; simpa [bitLength] using h
  | succ f ih =>
    intro a h
    unfold bitLength
    split
    · rename_i h0; rw [h0]; exact Nat.one_pos
    · have h2 : a / 2 < 2 ^ f := by
        rw [Nat.pow_succ] at h
        omega
      have := ih (a / 2) h2
      rw [Nat.pow_succ]
      omega

/-- The model of `float64(n)` yields a binary64 value: for an `int64` `n` the result is
`±m * 2^e` with a significand `m ≤ 2^53` and `e ≤ 11`, so that dividing it by `2^30` only
lowers the exponent and is exact. -/
theorem float64OfInt64_representable (n : Int) (h1 : -2 ^ 63 ≤ n) (h2 : n < 2 ^ 63) :
    ∃ m e : Nat, m ≤ 2 ^ 53 ∧ e ≤ 11 ∧
      (float64OfInt64 n = ((m * 2 ^ e : Nat) : Int) ∨
        float64OfInt64 n = -((m * 2 ^ e : Nat) : Int)) := by
  have ha : n.natAbs < 2 ^ 64 := by
    norm_num only at h1 h2 ⊢
    omega
  have hlen := bitLength_le 64 n.natAbs 64 ha
  have hlt := lt_pow_bitLength 64 n.natAbs ha
  unfold float64OfInt64
  simp only
  generalize he : bitLength 64 n.natAbs - 53 = e at *
  have hq : n.natAbs / 2 ^ e < 2 ^ 53 := by
    rw [Nat.div_lt_iff_lt_mul (Nat.pos_pow_of_pos _ (by norm_num)), ← Nat.pow_add]
    refine lt_of_lt_of_le hlt (Nat.pow_le_pow_right (by norm_num) ?_)
    omega
  refine ⟨(if 2 * (n.natAbs % 2 ^ e) > 2 ^ e ∨
        (2 * (n.natAbs % 2 ^ e) = 2 ^ e ∧ n.natAbs / 2 ^ e % 2 = 1)
      then n.natAbs / 2 ^ e + 1 else n.natAbs / 2 ^ e), e, ?_, by omega, ?_⟩
  · split <;> omega
  · split
    · exact Or.inr rfl
    · exact Or.inl rfl

theorem firstToken_example :
    FirstToken "  -42\t/volumes/a\n".data ['-', '4', '2'] :=
  ⟨[' ', ' '], "\t/volumes/a\n".data, by decide, by decide, by decide, by decide,
    fun c h => by
      have hc : '\t' = c := Option.some.inj h
      subst hc
      decide⟩

theorem firstToken_example_short : FirstToken "-42".data ['-', '4', '2'] :=
  ⟨[], [], by decide, by decide, by decide, by decide, fun c h => by cases h⟩

theorem no_firstToken_empty :
    ¬ ∃ (n : Int) (tok : List Char),
      FirstToken "".data tok ∧ IntLiteral tok n ∧ -2 ^ 63 ≤ n ∧ n < 2 ^ 63 := by
  rintro ⟨n, tok, ⟨pre, rest, h, -, hne, -, -⟩, -⟩
  have h2 : pre ++ tok ++ rest = [] := h.symm
  simp only [List.append_eq_nil] at h2
  exact hne h2.1.2

theorem exampleWorld_agreeFrom : agreeFrom 4 exampleWorld exampleWorldEarlyOk := by
  refine ⟨rfl, rfl, rfl, fun j hj => ⟨?_, rfl, rfl⟩⟩
  funext path
  show (if j < 4 then Except.ok ("1\t" ++ path) else exampleWorld.du j path) = _
  rw [if_neg (by omega)]

/-! ## Main theorems -/

/-- C1 (as stated) fails: for the scheme-less inputs `""`, `"/"` and `"a//"` the normalised
URL is `"http:/"` (no longer starting with `http://`, and ending with `/`), `"http://"`
(ending with `/`) and `"http://a/"` (ending with `/`).  The first is what `loadConfig`
returns for a configuration file without a `panel_url` field. -/
theorem normalizePanelURL_no_scheme_counterexample :
    (hasPrefix "" "http://" = false ∧ hasPrefix "" "https://" = false ∧
      normalizePanelURL "" = "http:/" ∧
      hasPrefix (normalizePanelURL "") "http://" = false ∧
      hasSuffix (normalizePanelURL "") "/" = true ∧
      loadConfig (.ok "cfg") (fun _ => .ok { exampleConfig with panelURL := "" }) =
        .ok { exampleConfig with panelURL := "http:/" }) ∧
    (hasPrefix "/" "http://" = false ∧ hasPrefix "/" "https://" = false ∧
      normalizePanelURL "/" = "http://" ∧ hasSuffix (normalizePanelURL "/") "/" = true) ∧
    (hasPrefix "a//" "http://" = false ∧ hasPrefix "a//" "https://" = false ∧
      normalizePanelURL "a//" = "http://a/" ∧
      hasSuffix (normalizePanelURL "a//") "/" = true) :=
  ⟨⟨by decide, by decide, by decide, by decide, by decide, rfl⟩, by decide, by decide⟩

/-- C1 (amended): for a panel URL `u` without `http://` or `https://` prefix the normalised
URL is `"http://" ++ u` with one trailing `/` removed; it starts with `http://` exactly when
`u` is not empty, and it ends with `/` exactly when `"http://" ++ u` ends with `//`. -/
theorem normalizePanelURL_no_scheme (u : String)
    (h1 : hasPrefix u "http://" = false) (h2 : hasPrefix u "https://" = false) :
    normalizePanelURL u = trimSuffix ("http://" ++ u) "/" ∧
    (hasPrefix (normalizePanelURL u) "http://" = true ↔ u ≠ "") ∧
    (hasSuffix (normalizePanelURL u) "/" = true ↔ hasSuffix ("http://" ++ u) "//" = true) := by
  have hn : normalizePanelURL u = trimSuffix ("http://" ++ u) "/" := by
    unfold normalizePanelURL; simp [h1, h2]
  refine ⟨hn, ?_⟩
  rw [hn, trimSuffix_slash, hasPrefix_iff, hasSuffix_iff, hasSuffix_iff, Ne, ← data_eq_nil_iff]
  rcases List.eq_nil_or_concat u.data with h0 | ⟨t, c, htc⟩
  · have hu : u = "" := (data_eq_nil_iff u).mp h0
    subst hu
    decide
  · rw [List.concat_eq_append] at htc
    have hd : ("http://" ++ u).data = ("http://".data ++ t) ++ [c] := by
      simp [htc]
    have hne : u.data ≠ [] := by rw [htc]; simp
    rw [specStripOne_data_concat _ _ _ hd, hd]
    show (['h', 't', 't', 'p', ':', '/', '/'] <+: _ ↔ _) ∧ (['/'] <:+ _ ↔ ['/', '/'] <:+ _)
    rw [slash2_suffix_concat]
    by_cases hc : c = '/'
    · simp only [hc, if_true, hne, not_false_eq_true, iff_true, true_and, and_true]
      exact List.prefix_append _ _
    · simp only [hc, if_false, hne, not_false_eq_true, iff_true, false_and, iff_false,
        slash_suffix_concat, and_true]
      rw [List.append_assoc]
      exact List.prefix_append _ _

/-- Witness of C1 (amended) at `u = "example.com/"`. -/
theorem normalizePanelURL_no_scheme_witness :
    hasPrefix "example.com/" "http://" = false ∧ hasPrefix "example.com/" "https://" = false ∧
    (normalizePanelURL "example.com/" = trimSuffix ("http://" ++ "example.com/") "/" ∧
      (hasPrefix (normalizePanelURL "example.com/") "http://" = true ↔ "example.com/" ≠ "") ∧
      (hasSuffix (normalizePanelURL "example.com/") "/" = true ↔
        hasSuffix ("http://" ++ "example.com/") "//" = true)) :=
  ⟨by decide, by decide, normalizePanelURL_no_scheme "example.com/" (by decide) (by decide)⟩

/-- C2: `loadConfig` returns the parsed configuration with the panel URL replaced by
`specStripOne (specWithScheme u)` and every other field unchanged. -/
theorem loadConfig_normalises_panelURL (data : String)
    (unmarshal : String → Except Error Config) (config : Config)
    (h : unmarshal data = .ok config) :
    loadConfig (.ok data) unmarshal = .ok
      { containersDirectory := config.containersDirectory
        panelURL := specStripOne (specWithScheme config.panelURL)
        adminAPIKey := config.adminAPIKey
        clientAPIKey := config.clientAPIKey
        checkInterval := config.checkInterval
        discordWebhookURL := config.discordWebhookURL } := by
  unfold loadConfig
  simp only [h, normalizePanelURL_eq_spec]

/-- Witness of C2 on the example configuration. -/
theorem loadConfig_normalises_panelURL_witness :
    loadConfig (.ok "cfg") (fun _ => .ok exampleConfig) = .ok
      { containersDirectory := "/volumes", panelURL := "http://example.com", adminAPIKey := "",
        clientAPIKey := "", checkInterval := 1, discordWebhookURL := "" } :=
  loadConfig_normalises_panelURL "cfg" (fun _ => .ok exampleConfig) exampleConfig rfl

/-- C3 (as stated) fails at `u = "https://"`: it starts with `https://` and ends with `/`,
and the normalised URL `"https:/"` no longer starts with `https://`. -/
theorem normalizePanelURL_https_slash_counterexample :
    hasPrefix "https://" "https://" = true ∧ hasSuffix "https://" "/" = true ∧
    normalizePanelURL "https://" = "https:/" ∧
    hasPrefix (normalizePanelURL "https://") "https://" = false ∧
    loadConfig (.ok "cfg") (fun _ => .ok { exampleConfig with panelURL := "https://" }) =
      .ok { exampleConfig with panelURL := "https:/" } :=
  ⟨by decide, by decide, by decide, by decide, rfl⟩

/-- C3 (amended): for a panel URL `u` that starts with `https://` and ends with `/` the
normalised URL is `u` without its last character, `http://` is not prepended, and the
result still starts with `https://` exactly when `u` is not `https://` itself. -/
theorem normalizePanelURL_https_slash (u : String)
    (h1 : hasPrefix u "https://" = true) (h2 : hasSuffix u "/" = true) :
    normalizePanelURL u = ⟨u.data.dropLast⟩ ∧
    hasPrefix (normalizePanelURL u) "http://" = false ∧
    (hasPrefix (normalizePanelURL u) "https://" = true ↔ u ≠ "https://") := by
  have hn : normalizePanelURL u = trimSuffix u "/" := by
    unfold normalizePanelURL; simp [h1]
  have hs : normalizePanelURL u = ⟨u.data.dropLast⟩ := by
    rw [hn, trimSuffix_slash]
    unfold specStripOne
    rw [if_pos ((hasSuffix_slash_iff u).mp h2)]
  refine ⟨hs, ?_⟩
  rw [hs]
  obtain ⟨r, hr⟩ := (hasPrefix_iff _ _).mp h1
  have hr2 : u.data = 'h' :: 't' :: 't' :: 'p' :: 's' :: ':' :: '/' :: '/' :: r := hr.symm
  rcases List.eq_nil_or_concat r with h0 | ⟨t, c, htc⟩
  · have hu : u = "https://" := String.ext (by rw [hr2, h0])
    subst hu
    decide
  · rw [List.concat_eq_append] at htc
    have hne : u ≠ "https://" := by
      intro e
      rw [e] at hr2
      have hr3 : ['h', 't', 't', 'p', 's', ':', '/', '/'] =
          'h' :: 't' :: 't' :: 'p' :: 's' :: ':' :: '/' :: '/' :: r := hr2
      have hr4 : r = [] := by simpa [eq_comm] using hr3
      rw [hr4] at htc
      simp at htc
    have hd : u.data.dropLast = "https://".data ++ t := by
      rw [hr2, htc]
      show ("https://".data ++ (t ++ [c])).dropLast = _
      rw [← List.append_assoc, List.dropLast_concat]
    constructor
    · rw [Bool.eq_false_iff, Ne, hasPrefix_iff]
      show ¬ (_ <+: u.data.dropLast)
      rw [hd]
      show ¬ (['h', 't', 't', 'p', ':', '/', '/'] <+:
        'h' :: 't' :: 't' :: 'p' :: 's' :: ':' :: '/' :: '/' :: t)
      simp
    · simp only [hne, Ne, not_false_eq_true, iff_true]
      rw [hasPrefix_iff]
      show _ <+: u.data.dropLast
      rw [hd]
      exact List.prefix_append _ _

/-- Witness of C3 (amended) at `u = "https://panel.example/"`. -/
theorem normalizePanelURL_https_slash_witness :
    hasPrefix "https://panel.example/" "https://" = true ∧
    hasSuffix "https://panel.example/" "/" = true ∧
    (normalizePanelURL "https://panel.example/" = ⟨"https://panel.example/".data.dropLast⟩ ∧
      hasPrefix (normalizePanelURL "https://panel.example/") "http://" = false ∧
      (hasPrefix (normalizePanelURL "https://panel.example/") "https://" = true ↔
        "https://panel.example/" ≠ "https://")) :=
  ⟨by decide, by decide,
    normalizePanelURL_https_slash "https://panel.example/" (by decide) (by decide)⟩

/-- C4: the float test `float64(usage) / (1024*1024*1024) > 95` agrees with the integer
comparison `usage > 95 * 1024^3 = 102005473280` for every integer `n` (every `int64` in
particular, rounded or not), and for an eligible entry whose sample succeeded with `usage`
bytes the notifier is called exactly when `usage > 102005473280`; at or below the
threshold the entry is only sampled and logged. -/
theorem notify_iff_usage_above_threshold (config : Config) (w : World) (i : Nat)
    (file : DirEntry) (usage : Int)
    (hd : file.isDir = true) (hn : file.name ≠ ".sftp")
    (hs : getDiskUsage (w.du i) (w.join config.containersDirectory file.name) = (usage, none)) :
    (∀ n : Int, usageGB n > 95 ↔ n > 95 * 1024 ^ 3) ∧
    notifiedVolumes (processEntry config w i file) =
      (if usage > 102005473280 then [file.name] else []) ∧
    (usage ≤ 102005473280 →
      processEntry config w i file =
        [.sample (w.join config.containersDirectory file.name),
         .logUsage file.name (usageGB usage)]) ∧
    (usage > 102005473280 →
      Event.notify file.name "High disk usage"
        ("Current usage: " ++ w.sprintf2f (usageGB usage) ++ " GB") ∈
          processEntry config w i file) := by
  have he := eligible_of file hd hn
  have hp := processEntry_sampleOk config w i file he usage hs
  refine ⟨?_, ?_, ?_, ?_⟩
  · intro n
    rw [usageGB_gt_iff]
    norm_num
  · rw [hp, notifiedVolumes_afterSample]
    simp only [usageGB_gt_iff]
  · intro hle
    rw [hp]
    unfold afterSample
    have : ¬ (usageGB usage > 95) := by
      rw [usageGB_gt_iff]; omega
    rw [if_neg this]
    rfl
  · intro hgt
    rw [hp]
    unfold afterSample
    rw [if_pos ((usageGB_gt_iff usage).mpr hgt)]
    simp

/-- Witness of C4: `/volumes/d` holds exactly 95 GiB = 102005473280 bytes and is only
sampled and logged; `/volumes/c` holds one byte more and the notifier is called. -/
theorem notify_iff_usage_above_threshold_witness :
    processEntry exampleConfigWebhook exampleWorld 0 { name := "d", isDir := true } =
      [.sample "/volumes/d", .logUsage "d" (usageGB 102005473280)] ∧
    notifiedVolumes (processEntry exampleConfigWebhook exampleWorld 0
      { name := "d", isDir := true }) = [] ∧
    notifiedVolumes (processEntry exampleConfigWebhook exampleWorld 0
      { name := "c", isDir := true }) = ["c"] ∧
    Event.notify "c" "High disk usage" ("Current usage: " ++ "0.00" ++ " GB") ∈
      processEntry exampleConfigWebhook exampleWorld 0 { name := "c", isDir := true } :=
  ⟨(notify_iff_usage_above_threshold exampleConfigWebhook exampleWorld 0
      { name := "d", isDir := true } 102005473280 rfl (by decide) (by decide)).2.2.1
      (by decide),
    (notify_iff_usage_above_threshold exampleConfigWebhook exampleWorld 0
      { name := "d", isDir := true } 102005473280 rfl (by decide) (by decide)).2.1,
    (notify_iff_usage_above_threshold exampleConfigWebhook exampleWorld 0
      { name := "c", isDir := true } 102005473281 rfl (by decide) (by decide)).2.1,
    (notify_iff_usage_above_threshold exampleConfigWebhook exampleWorld 0
      { name := "c", isDir := true } 102005473281 rfl (by decide) (by decide)).2.2.2
      (by decide)⟩

/-- C5: in a scan cycle whose listing is `files`, the paths sampled are, in listing order,
the root joined with the name of every entry that is a directory and is not named `.sftp`:
non-directories and entries named `.sftp` are skipped, every other directory is sampled. -/
theorem scanCycle_samples_eligible_directories (config : Config) (w : World)
    (files : List DirEntry) :
    sampledPaths (scanCycle config { readDir := .ok files, world := w }) =
      (files.filter fun file => file.isDir && file.name != ".sftp").map
        fun file => w.join config.containersDirectory file.name :=
  sampledPaths_scanCycle config w files

/-- C6: with the empty webhook URL `sendDiscordNotification` returns `nil` and makes no
HTTP request; with a non-empty webhook URL, when the payload marshals, it makes exactly one
HTTP POST, to that URL, with content type `application/json` and the payload as body. -/
theorem sendDiscordNotification_empty_webhook
    (marshal : DiscordMessage → Except Error String) (post : HttpRequest → Except Error Int)
    (now volume reason details : String) :
    sendDiscordNotification marshal post now "" volume reason details = (none, []) ∧
    ∀ (webhookURL payload : String), webhookURL ≠ "" →
      marshal (alertMessage volume reason details now) = .ok payload →
      (sendDiscordNotification marshal post now webhookURL volume reason details).2 =
        [{ url := webhookURL, contentType := "application/json", body := payload }] := by
  refine ⟨rfl, ?_⟩
  intro url payload hurl hm
  unfold sendDiscordNotification
  have : (url == "") = false := by simpa using hurl
  simp only [this, hm]
  cases post { url := url, contentType := "application/json", body := payload } with
  | error e => rfl
  | ok code =>
    by_cases hc : code ≠ 204
    · simp [hc]
    · simp [hc]

/-- Witness of C6: with the webhook `https://discord.example/hook` exactly one POST is made. -/
theorem sendDiscordNotification_empty_webhook_witness :
    sendDiscordNotification exampleWorld.marshal (exampleWorld.post 0) "t" "" "b"
        "High disk usage" "d" = (none, []) ∧
    (sendDiscordNotification exampleWorld.marshal (exampleWorld.post 0) "t"
        "https://discord.example/hook" "b" "High disk usage" "d").2 =
      [{ url := "https://discord.example/hook", contentType := "application/json",
         body := (alertMessage "b" "High disk usage" "d" "t").content }] :=
  ⟨(sendDiscordNotification_empty_webhook exampleWorld.marshal (exampleWorld.post 0) "t" "b"
      "High disk usage" "d").1,
    (sendDiscordNotification_empty_webhook exampleWorld.marshal (exampleWorld.post 0) "t" "b"
      "High disk usage" "d").2 "https://discord.example/hook"
      (alertMessage "b" "High disk usage" "d" "t").content (by decide) rfl⟩

/-- C7: with a non-empty webhook URL and a payload that marshals, `sendDiscordNotification`
returns `nil` exactly when the POST completed with status code 204; a transport error is
returned as it is, and every other status code (200 included) gives the error
"discord webhook returned status". -/
theorem sendDiscordNotification_success_iff_204
    (marshal : DiscordMessage → Except Error String) (post : HttpRequest → Except Error Int)
    (now webhookURL volume reason details payload : String)
    (hurl : webhookURL ≠ "")
    (hm : marshal (alertMessage volume reason details now) = .ok payload) :
    ((sendDiscordNotification marshal post now webhookURL volume reason details).1 = none ↔
      post { url := webhookURL, contentType := "application/json", body := payload } = .ok 204) ∧
    (∀ err, post { url := webhookURL, contentType := "application/json", body := payload } =
        .error err →
      (sendDiscordNotification marshal post now webhookURL volume reason details).1 =
        some err) ∧
    (∀ code, post { url := webhookURL, contentType := "application/json", body := payload } =
        .ok code → code ≠ 204 →
      (sendDiscordNotification marshal post now webhookURL volume reason details).1 =
        some (.webhookStatus code)) := by
  have hb : (webhookURL == "") = false := by simpa using hurl
  unfold sendDiscordNotification
  simp only [hb, hm]
  cases hp : post { url := webhookURL, contentType := "application/json", body := payload } with
  | error e => simp
  | ok code =>
    by_cases hc : code = 204
    · simp [hc]
    · simp [hc]

/-- Witness of C7: the example webhook answers 200, which is an error. -/
theorem sendDiscordNotification_success_iff_204_witness :
    (sendDiscordNotification exampleWorld.marshal (exampleWorld.post 0) "t"
        "https://discord.example/hook" "b" "High disk usage" "d").1 =
      some (.webhookStatus 200) :=
  (sendDiscordNotification_success_iff_204 exampleWorld.marshal (exampleWorld.post 0) "t"
    "https://discord.example/hook" "b" "High disk usage" "d"
    (alertMessage "b" "High disk usage" "d" "t").content (by decide) rfl).2.2 200 rfl
    (by decide)

/-- C8: `getDiskUsage` returns the error of a failed execution with value 0; on output
`output` it returns `(n, nil)` exactly when the first white-space-delimited token of the
output is a base-10 integer literal of value `n` within the `int64` range, and an error
with value 0 otherwise; two outputs with the same first token give the same result. -/
theorem getDiskUsage_first_token_int64 (run : String → Except Error String) (path : String) :
    (∀ err, run path = .error err → getDiskUsage run path = (0, some err)) ∧
    (∀ output, run path = .ok output →
      (∀ n, getDiskUsage run path = (n, none) ↔
        ∃ tok, FirstToken output.data tok ∧ IntLiteral tok n ∧ -2 ^ 63 ≤ n ∧ n < 2 ^ 63) ∧
      ((¬ ∃ n tok, FirstToken output.data tok ∧ IntLiteral tok n ∧ -2 ^ 63 ≤ n ∧ n < 2 ^ 63) →
        ∃ err, getDiskUsage run path = (0, some err)) ∧
      (∀ (run2 : String → Except Error String) (path2 output2 : String) (tok : List Char),
        run2 path2 = .ok output2 → FirstToken output.data tok → FirstToken output2.data tok →
          getDiskUsage run2 path2 = getDiskUsage run path)) := by
  refine ⟨?_, ?_⟩
  · intro err h
    unfold getDiskUsage
    rw [h]
  · intro output h
    refine ⟨fun n => getDiskUsage_ok_iff run path output h n, ?_, ?_⟩
    · intro hno
      rcases getDiskUsage_cases run path with ⟨n, hn⟩ | herr
      · exact absurd ⟨n, (getDiskUsage_ok_iff run path output h n).mp hn⟩ hno
      · exact herr
    · intro run2 path2 output2 tok h2 ht ht2
      obtain ⟨tl, htl⟩ := fields_of_firstToken output tok ht
      obtain ⟨tl2, htl2⟩ := fields_of_firstToken output2 tok ht2
      unfold getDiskUsage
      rw [h, h2]
      simp only [htl, htl2]

/-- Witness of C8: a failed execution; the output `"  -42\t/volumes/a\n"`, whose first token
is `-42`; the empty output, which has no token; and the output `"-42"`, which has the same
first token as the second one. -/
theorem getDiskUsage_first_token_int64_witness :
    getDiskUsage (fun _ => .error (.external "exit status 1")) "/volumes/a" =
      (0, some (.external "exit status 1")) ∧
    (getDiskUsage (fun _ => .ok "  -42\t/volumes/a\n") "/volumes/a" = (-42, none) ∧
      ∃ tok, FirstToken "  -42\t/volumes/a\n".data tok ∧ IntLiteral tok (-42) ∧
        -2 ^ 63 ≤ (-42 : Int) ∧ (-42 : Int) < 2 ^ 63) ∧
    (∃ err, getDiskUsage (fun _ => .ok "") "/volumes/a" = (0, some err)) ∧
    getDiskUsage (fun _ => .ok "-42") "/volumes/b" =
      getDiskUsage (fun _ => .ok "  -42\t/volumes/a\n") "/volumes/a" :=
  ⟨(getDiskUsage_first_token_int64 (fun _ => .error (.external "exit status 1"))
      "/volumes/a").1 (.external "exit status 1") rfl,
    ⟨by decide,
      (((getDiskUsage_first_token_int64 (fun _ => .ok "  -42\t/volumes/a\n") "/volumes/a").2
        "  -42\t/volumes/a\n" rfl).1 (-42)).mp (by decide)⟩,
    ((getDiskUsage_first_token_int64 (fun _ => .ok "") "/volumes/a").2 "" rfl).2.1
      no_firstToken_empty,
    ((getDiskUsage_first_token_int64 (fun _ => .ok "  -42\t/volumes/a\n") "/volumes/a").2
      "  -42\t/volumes/a\n" rfl).2.2 (fun _ => .ok "-42") "/volumes/b" "-42"
        ['-', '4', '2'] rfl firstToken_example firstToken_example_short⟩

/-- C9: in a scan cycle whose listing succeeded, (1) every eligible entry is sampled exactly
once, in listing order, whatever the outcomes; (2) the trace of the cycle is the trace of
the entries before a position, followed by the step of the entry at that position, followed
by the trace of the later entries, and (3) the trace of the later entries is the same in
every world that agrees on the later positions, whatever happened before; (4) an eligible
entry whose sample fails produces the sample and one error log line only; (5) a failed
notification is followed by its error log line only; (6) the process is still running
after any sequence of ticks once the ticker was started. -/
theorem scanCycle_failures_do_not_propagate (config : Config) (w : World)
    (files : List DirEntry) :
    sampledPaths (scanCycle config { readDir := .ok files, world := w }) =
      (files.filter fun file => file.isDir && file.name != ".sftp").map
        (fun file => w.join config.containersDirectory file.name) ∧
    (∀ (before : List DirEntry) (file : DirEntry) (later : List DirEntry),
      files = before ++ file :: later →
        scanCycle config { readDir := .ok files, world := w } =
          scanFrom config w 0 before ++ processEntry config w before.length file ++
            scanFrom config w (before.length + 1) later ∧
        ∀ w2, agreeFrom (before.length + 1) w w2 →
          scanFrom config w2 (before.length + 1) later =
            scanFrom config w (before.length + 1) later) ∧
    (∀ (i : Nat) (file : DirEntry) (v : Int) (err : Error),
      file.isDir = true → file.name ≠ ".sftp" →
      getDiskUsage (w.du i) (w.join config.containersDirectory file.name) = (v, some err) →
        processEntry config w i file =
          [.sample (w.join config.containersDirectory file.name),
           .logSampleError file.name err]) ∧
    (∀ (i : Nat) (file : DirEntry) (usage : Int) (err : Error),
      file.isDir = true → file.name ≠ ".sftp" →
      getDiskUsage (w.du i) (w.join config.containersDirectory file.name) = (usage, none) →
      usageGB usage > 95 →
      (sendDiscordNotification w.marshal (w.post i) (w.now i) config.discordWebhookURL
        file.name "High disk usage"
        ("Current usage: " ++ w.sprintf2f (usageGB usage) ++ " GB")).1 = some err →
        ∃ reqs : List HttpRequest, processEntry config w i file =
          [.sample (w.join config.containersDirectory file.name),
           .logUsage file.name (usageGB usage),
           .notify file.name "High disk usage"
             ("Current usage: " ++ w.sprintf2f (usageGB usage) ++ " GB")] ++
            reqs.map Event.httpPost ++ [.logNotifyError err]) ∧
    (∀ (readFile : Except Error String) (unmarshal : String → Except Error Config)
        (ticks : List Tick),
      (main readFile unmarshal []).2 = .running →
        (main readFile unmarshal ticks).2 = .running ∧
        ∃ loaded, loadConfig readFile unmarshal = .ok loaded ∧
          (main readFile unmarshal ticks).1 =
            .logStart loaded.containersDirectory :: ticks.flatMap (scanCycle loaded)) := by
  refine ⟨sampledPaths_scanCycle config w files, ?_, ?_, ?_, ?_⟩
  · intro before file later hf
    refine ⟨?_, ?_⟩
    · show scanFrom config w 0 files = _
      rw [hf, scanFrom_append, scanFrom, Nat.zero_add, List.append_assoc]
    · intro w2 h
      exact scanFrom_agree config w w2 _ h later _ (Nat.le_refl _)
  · intro i file v err hd hn hs
    exact processEntry_sampleError config w i file (eligible_of file hd hn) v err hs
  · intro i file usage err hd hn hs hgt hsend
    refine ⟨(sendDiscordNotification w.marshal (w.post i) (w.now i) config.discordWebhookURL
        file.name "High disk usage"
        ("Current usage: " ++ w.sprintf2f (usageGB usage) ++ " GB")).2, ?_⟩
    rw [processEntry_sampleOk config w i file (eligible_of file hd hn) usage hs]
    unfold afterSample
    rw [if_pos hgt, hsend]
    simp [volumePath]
  · intro readFile unmarshal ticks h
    unfold main at h ⊢
    cases hl : loadConfig readFile unmarshal with
    | error e => rw [hl] at h; simp at h
    | ok loaded =>
      rw [hl] at h
      simp only at h ⊢
      by_cases hc : toInt64 (toInt64 loaded.checkInterval * 1000000000) ≤ 0
      · rw [if_pos hc] at h; simp at h
      · rw [if_neg hc]
        exact ⟨rfl, loaded, rfl, rfl⟩

/-- Witness of C9 on the example listing with a webhook that answers 200: six entries, four
eligible; `b` is notified and the notification fails, `broken` cannot be sampled. -/
theorem scanCycle_failures_do_not_propagate_witness :
    sampledPaths (scanCycle exampleConfigWebhook
        { readDir := .ok exampleListing, world := exampleWorld }) =
      ["/volumes/a", "/volumes/b", "/volumes/broken", "/volumes/.sftp2"] ∧
    scanCycle exampleConfigWebhook { readDir := .ok exampleListing, world := exampleWorld } =
      scanFrom exampleConfigWebhook exampleWorld 0
          [{ name := "notes.txt", isDir := false }, { name := ".sftp", isDir := true },
           { name := "a", isDir := true }] ++
        processEntry exampleConfigWebhook exampleWorld 3 { name := "b", isDir := true } ++
        scanFrom exampleConfigWebhook exampleWorld 4
          [{ name := "broken", isDir := true }, { name := ".sftp2", isDir := true }] ∧
    processEntry exampleConfigWebhook exampleWorld 4 { name := "broken", isDir := true } =
      [.sample "/volumes/broken",
       .logSampleError "broken" (.external "exit status 1")] ∧
    (∃ reqs : List HttpRequest,
      processEntry exampleConfigWebhook exampleWorld 3 { name := "b", isDir := true } =
        [.sample "/volumes/b", .logUsage "b" (usageGB 128849018880),
         .notify "b" "High disk usage" ("Current usage: " ++ "0.00" ++ " GB")] ++
          reqs.map Event.httpPost ++ [.logNotifyError (.webhookStatus 200)]) ∧
    scanFrom exampleConfigWebhook exampleWorldEarlyOk 4
        [{ name := "broken", isDir := true }, { name := ".sftp2", isDir := true }] =
      scanFrom exampleConfigWebhook exampleWorld 4
        [{ name := "broken", isDir := true }, { name := ".sftp2", isDir := true }] ∧
    (main (.ok "cfg") (fun _ => .ok exampleConfigWebhook)
      [{ readDir := .ok exampleListing, world := exampleWorld }]).2 = .running :=
  ⟨(scanCycle_failures_do_not_propagate exampleConfigWebhook exampleWorld exampleListing).1,
    ((scanCycle_failures_do_not_propagate exampleConfigWebhook exampleWorld
      exampleListing).2.1
        [{ name := "notes.txt", isDir := false }, { name := ".sftp", isDir := true },
         { name := "a", isDir := true }]
        { name := "b", isDir := true }
        [{ name := "broken", isDir := true }, { name := ".sftp2", isDir := true }] rfl).1,
    (scanCycle_failures_do_not_propagate exampleConfigWebhook exampleWorld
      exampleListing).2.2.1 4 { name := "broken", isDir := true } 0
        (.external "exit status 1") rfl (by decide) (by decide),
    (scanCycle_failures_do_not_propagate exampleConfigWebhook exampleWorld
      exampleListing).2.2.2.1 3 { name := "b", isDir := true } 128849018880
        (.webhookStatus 200) rfl (by decide) (by decide)
        ((usageGB_gt_iff 128849018880).mpr (by decide)) (by decide),
    ((scanCycle_failures_do_not_propagate exampleConfigWebhook exampleWorld
      exampleListing).2.1
        [{ name := "notes.txt", isDir := false }, { name := ".sftp", isDir := true },
         { name := "a", isDir := true }]
        { name := "b", isDir := true }
        [{ name := "broken", isDir := true }, { name := ".sftp2", isDir := true }] rfl).2
      exampleWorldEarlyOk exampleWorld_agreeFrom,
    ((scanCycle_failures_do_not_propagate exampleConfigWebhook exampleWorld
      exampleListing).2.2.2.2 (.ok "cfg") (fun _ => .ok exampleConfigWebhook)
        [{ readDir := .ok exampleListing, world := exampleWorld }] (by decide)).1⟩

/-- C10: with an empty webhook URL a scan cycle makes no HTTP request and logs no
notification error, and when the listing succeeded it logs the usage of exactly the
eligible entries whose sample succeeded, once each, in listing order. -/
theorem scanCycle_empty_webhook_no_http (config : Config) (t : Tick)
    (h : config.discordWebhookURL = "") :
    httpRequests (scanCycle config t) = [] ∧
    notifyErrors (scanCycle config t) = [] ∧
    ∀ files, t.readDir = .ok files →
      usageLogNames (scanCycle config t) =
        (files.enum.filter fun p =>
          p.2.isDir && p.2.name != ".sftp" &&
            (getDiskUsage (t.world.du p.1)
              (t.world.join config.containersDirectory p.2.name)).2.isNone).map
          fun p => p.2.name := by
  refine ⟨?_, ?_, ?_⟩
  · unfold scanCycle
    split
    · rfl
    · exact (quiet_scanFrom config t.world h _ 0).1
  · unfold scanCycle
    split
    · rfl
    · exact (quiet_scanFrom config t.world h _ 0).2
  · intro files hf
    unfold scanCycle
    rw [hf]
    simp only
    rw [usageLogNames_scanFrom]
    rfl

/-- Witness of C10: root `/volumes` with directories `a` (10 GiB) and `b` (120 GiB) and no
webhook: two usage log lines, no HTTP request, no notification error. -/
theorem scanCycle_empty_webhook_no_http_witness :
    exampleConfig.discordWebhookURL = "" ∧
    httpRequests (scanCycle exampleConfig
      { readDir := .ok [{ name := "a", isDir := true }, { name := "b", isDir := true }],
        world := exampleWorld }) = [] ∧
    notifyErrors (scanCycle exampleConfig
      { readDir := .ok [{ name := "a", isDir := true }, { name := "b", isDir := true }],
        world := exampleWorld }) = [] ∧
    usageLogNames (scanCycle exampleConfig
      { readDir := .ok [{ name := "a", isDir := true }, { name := "b", isDir := true }],
        world := exampleWorld }) = ["a", "b"] :=
  ⟨rfl,
    (scanCycle_empty_webhook_no_http exampleConfig
      { readDir := .ok [{ name := "a", isDir := true }, { name := "b", isDir := true }],
        world := exampleWorld } rfl).1,
    (scanCycle_empty_webhook_no_http exampleConfig
      { readDir := .ok [{ name := "a", isDir := true }, { name := "b", isDir := true }],
        world := exampleWorld } rfl).2.1,
    (scanCycle_empty_webhook_no_http exampleConfig
      { readDir := .ok [{ name := "a", isDir := true }, { name := "b", isDir := true }],
        world := exampleWorld } rfl).2.2 _ rfl⟩

end DiskMonitor
